import Mathlib

/-!
Verification development for the RP2040-DSP real-time audio engine.

The definitions below are a shallow embedding of the C sources:
machine integers become Nat/Int with explicit two-complement wrapping
where the C code performs 32-bit arithmetic, arrays and the external
SPI RAM become total functions, and the per-sample processing routines
become pure state-transformer functions.  File and line references to
the original sources accompany each definition.
-/

set_option maxHeartbeats 1000000
set_option maxRecDepth 8000

namespace RP2040DSP

/-! ### Machine arithmetic (var_conversion.h, audio.h) -/

/-- Two-complement reduction of an integer into the int32_t range.
This models the C cast to int32_t of a wider intermediate value. -/
def wrap32 (x : Int) : Int := (x + 2147483648) % 4294967296 - 2147483648

/-- Value of a stored 32-bit word, as the external SPI memory keeps it
(big-endian byte serialization of an int32_t, i.e. the value mod 2^32;
delay.h lines 56-66). -/
def u32ofInt (x : Int) : Nat := (x % 4294967296).toNat

/-- Reassembly of a stored 32-bit word into an int32_t (delay.h lines 68-78). -/
def i32ofU32 (n : Nat) : Int := wrap32 (n : Int)

/-- Arithmetic shift right by one bit on an int32_t, i.e. floor division
by two, as used for the halving shifts in delay.h. -/
def sar1 (x : Int) : Int := x.fdiv 2

/-- Q16 one constant (var_conversion.h line 27). -/
def Q16_ONE : Nat := 65536

/-- Fixed-point multiply of an int32_t by an unsigned Q16 factor:
the 64-bit product is arithmetically shifted right by 16 and cast back
to int32_t without clamping (var_conversion.h lines 131-133). -/
def multiply_q16 (a : Int) (b : Nat) : Int := wrap32 ((a * (b : Int)).fdiv 65536)

/-- Largest magnitude the clamp helper allows: 0x7FFFFF00, the largest
24-bit sample value in the engine's 32-bit sample container
(audio.h lines 25-26). -/
def PEAK_MAX : Int := 2147483392

/-- Clamp of an int32_t sample to the engine's 24-bit sample range
(audio.h lines 82-86). -/
def clamp24 (x : Int) : Int :=
  if x > PEAK_MAX then PEAK_MAX else if x < -PEAK_MAX then -PEAK_MAX else x

/-- Maximum potentiometer reading, 12 bits (io.h line 65). -/
def POT_MAX : Nat := 4095

/-- Master volume derived from a potentiometer reading
(audio.h lines 153-155). -/
def update_volume_from_pot (pot : Nat) : Nat := pot * Q16_ONE / POT_MAX

/-- Master volume application to one stereo sample pair
(audio.h lines 159-162). -/
def process_audio_volume_sample (volume_q16 : Nat) (l r : Int) : Int × Int :=
  (multiply_q16 l volume_q16, multiply_q16 r volume_q16)

/-! ### Delay line data model (delay.h) -/

/-- Logical circular-buffer capacity in samples (delay.h line 28). -/
def MAX_DELAY_SAMPLES : Nat := 98304

/-- Number of external-memory blocks covering the logical buffer.
BLOCK_SIZE equals AUDIO_BUFFER_FRAMES (delay.h line 29), a constant of
the i2s library that is not part of this repository, so the block size
BS is kept as an explicit parameter throughout. -/
def SPI_BLOCK_COUNT (BS : Nat) : Nat := MAX_DELAY_SAMPLES / BS

/-- Delay feedback topology (DelayMode in the UI headers). -/
inductive DelayMode
  | parallel
  | cross
  | mixed
  | pingpong
deriving DecidableEq

/-- Full mutable state of the delay effect: the module-level statics of
delay.h (lines 33-53) plus the two per-channel halves of the external
SPI RAM (modelled as word-indexed functions; the two halves live at
disjoint byte offsets 0 and MAX_DELAY_SAMPLES*4/2). -/
structure DelayState where
  delay_samples_l : Nat
  delay_samples_r : Nat
  delay_feedback_q16 : Nat
  delay_mix_q16 : Nat
  delay_dry_q16 : Nat
  volume_gain_q16 : Nat
  lpf_alpha_q16 : Nat
  lpf_state_l : Int
  lpf_state_r : Int
  spi_write_index_l : Nat
  spi_read_index_l : Nat
  write_block_l : Nat → Int
  read_block_l : Nat → Int
  write_block_pos_l : Nat
  write_block_index_l : Nat
  read_block_start_index_l : Nat
  spi_write_index_r : Nat
  spi_read_index_r : Nat
  write_block_r : Nat → Int
  read_block_r : Nat → Int
  write_block_pos_r : Nat
  write_block_index_r : Nat
  read_block_start_index_r : Nat
  mem_l : Nat → Nat
  mem_r : Nat → Nat

attribute [ext] DelayState

/-- Burst write of one block into a channel region of the external
memory (delay.h lines 56-66): the block of int32 samples is serialized
to bytes, which amounts to storing each word reduced mod 2^32. -/
def spi_write_block (BS : Nat) (mem : Nat → Nat) (block_index : Nat)
    (block : Nat → Int) : Nat → Nat :=
  fun w =>
    if block_index * BS ≤ w ∧ w < block_index * BS + BS then
      u32ofInt (block (w - block_index * BS))
    else mem w

/-- Burst read of one block from a channel region of the external
memory into a local buffer (delay.h lines 68-78). -/
def spi_read_block (BS : Nat) (mem : Nat → Nat) (block_index : Nat) : Nat → Int :=
  fun i => i32ofU32 (mem (block_index * BS + i))

/-- Zero-fill of the first k blocks of a channel region, as performed by
the loops of clear_delay_memory (delay.h lines 115-122). -/
def zero_blocks (BS : Nat) (mem : Nat → Nat) : Nat → (Nat → Nat)
  | 0 => mem
  | k + 1 => spi_write_block BS (zero_blocks BS mem k) k (fun _ => 0)

/-- Unsigned 32-bit subtraction a - b as C computes it on uint32_t. -/
def u32sub (a b : Nat) : Nat := (a + (4294967296 - b % 4294967296)) % 4294967296

/-- Read cursor recomputation
(spi_read_index = (spi_write_index + MAX_DELAY_SAMPLES - delay_samples)
mod MAX_DELAY_SAMPLES, in uint32_t arithmetic; delay.h lines 231, 266,
297). -/
def readIndexFor (w d : Nat) : Nat :=
  u32sub ((w + MAX_DELAY_SAMPLES) % 4294967296) d % MAX_DELAY_SAMPLES

/-- Clear-memory operation (delay.h lines 111-147): zero-fills both
external channel regions, resets the local block buffers, the low-pass
states and all cursors. -/
def clear_delay_memory (BS : Nat) (s : DelayState) : DelayState :=
  let sbc2 := SPI_BLOCK_COUNT BS / 2
  let mem_l := zero_blocks BS s.mem_l sbc2
  let mem_r := zero_blocks BS s.mem_r sbc2
  let wi_l := s.delay_samples_l % MAX_DELAY_SAMPLES
  let wi_r := s.delay_samples_r % MAX_DELAY_SAMPLES
  { s with
    mem_l := mem_l
    mem_r := mem_r
    write_block_l := fun _ => 0
    read_block_l := spi_read_block BS mem_l ((0 / BS) % sbc2)
    write_block_r := fun _ => 0
    read_block_r := spi_read_block BS mem_r ((0 / BS) % sbc2)
    lpf_state_l := 0
    lpf_state_r := 0
    spi_read_index_l := 0
    spi_write_index_l := wi_l
    write_block_index_l := (wi_l / BS) % sbc2
    write_block_pos_l := wi_l % BS
    read_block_start_index_l := 0 / BS
    spi_read_index_r := 0
    spi_write_index_r := wi_r
    write_block_index_r := (wi_r / BS) % sbc2
    write_block_pos_r := wi_r % BS
    read_block_start_index_r := 0 / BS }

/-- Raw delayed sample obtained on the left read path for the current
sample: when the read cursor is at a block boundary the block is burst
read from external memory, otherwise the cached read block is used;
the sample at the intra-block offset is returned (delay.h lines
152-165). -/
def delay_read_l (BS : Nat) (s : DelayState) : Int :=
  (if s.spi_read_index_l % BS = 0 then
      spi_read_block BS s.mem_l ((s.spi_read_index_l / BS) % (SPI_BLOCK_COUNT BS / 2))
    else s.read_block_l) (s.spi_read_index_l % BS)

/-- Raw delayed sample on the right read path (delay.h lines 156-166). -/
def delay_read_r (BS : Nat) (s : DelayState) : Int :=
  (if s.spi_read_index_r % BS = 0 then
      spi_read_block BS s.mem_r ((s.spi_read_index_r / BS) % (SPI_BLOCK_COUNT BS / 2))
    else s.read_block_r) (s.spi_read_index_r % BS)

/-- One-pole low-pass update applied on the delay write path:
state += ((x - state) * alpha) in Q16, all in int32_t arithmetic
(delay.h lines 200, 206, 239, 240). -/
def lpfStep (alpha : Nat) (st x : Int) : Int :=
  wrap32 (st + multiply_q16 (wrap32 (x - st)) alpha)

/-- Mono downmix of the ping-pong branch:
the two inputs are arithmetically shifted right by one bit and summed
(delay.h line 196). -/
def pingpong_mono (l r : Int) : Int := wrap32 (sar1 l + sar1 r)

/-- Common tail of process_audio_delay_sample once the new low-pass
states are known (delay.h lines 202-234 in the ping-pong branch and the
textually identical lines 242-269 in the shared branch): store the
low-pass outputs into the per-channel write blocks, flush a full block
to the external memory, mix the dry input with the raw delayed samples,
apply the delay volume, and advance the cursors. -/
def delay_store_mix_update (BS : Nat) (s : DelayState) (rb_l rb_r : Nat → Int)
    (delayed_l delayed_r lpf_l lpf_r in_l in_r : Int) : (Int × Int) × DelayState :=
  let sbc2 := SPI_BLOCK_COUNT BS / 2
  let wb_l := fun j => if j = s.write_block_pos_l then lpf_l else s.write_block_l j
  let wb_r := fun j => if j = s.write_block_pos_r then lpf_r else s.write_block_r j
  let pos_l := s.write_block_pos_l + 1
  let pos_r := s.write_block_pos_r + 1
  let mem_l := if BS ≤ pos_l then spi_write_block BS s.mem_l s.write_block_index_l wb_l else s.mem_l
  let wbi_l := if BS ≤ pos_l then (s.write_block_index_l + 1) % sbc2 else s.write_block_index_l
  let pos_l := if BS ≤ pos_l then 0 else pos_l
  let mem_r := if BS ≤ pos_r then spi_write_block BS s.mem_r s.write_block_index_r wb_r else s.mem_r
  let wbi_r := if BS ≤ pos_r then (s.write_block_index_r + 1) % sbc2 else s.write_block_index_r
  let pos_r := if BS ≤ pos_r then 0 else pos_r
  let out_l := multiply_q16
    (wrap32 (multiply_q16 in_l s.delay_dry_q16 + multiply_q16 delayed_l s.delay_mix_q16))
    s.volume_gain_q16
  let out_r := multiply_q16
    (wrap32 (multiply_q16 in_r s.delay_dry_q16 + multiply_q16 delayed_r s.delay_mix_q16))
    s.volume_gain_q16
  let w_l := (s.spi_write_index_l + 1) % MAX_DELAY_SAMPLES
  let w_r := (s.spi_write_index_r + 1) % MAX_DELAY_SAMPLES
  ((out_l, out_r),
    { s with
      lpf_state_l := lpf_l
      lpf_state_r := lpf_r
      read_block_l := rb_l
      read_block_r := rb_r
      write_block_l := wb_l
      write_block_r := wb_r
      write_block_pos_l := pos_l
      write_block_pos_r := pos_r
      write_block_index_l := wbi_l
      write_block_index_r := wbi_r
      mem_l := mem_l
      mem_r := mem_r
      spi_write_index_l := w_l
      spi_read_index_l := readIndexFor w_l s.delay_samples_l
      spi_write_index_r := w_r
      spi_read_index_r := readIndexFor w_r s.delay_samples_r })

/-- One sample of delay processing (delay.h lines 150-270): refresh the
read-block caches at block boundaries, fetch the delayed samples,
derive the per-mode feedback, low-pass the post-feedback signal, store
it on the write path, mix and advance. -/
def process_audio_delay_sample (BS : Nat) (mode : DelayMode) (s : DelayState)
    (in_l in_r : Int) : (Int × Int) × DelayState :=
  let sbc2 := SPI_BLOCK_COUNT BS / 2
  let rb_l := if s.spi_read_index_l % BS = 0 then
      spi_read_block BS s.mem_l ((s.spi_read_index_l / BS) % sbc2)
    else s.read_block_l
  let rb_r := if s.spi_read_index_r % BS = 0 then
      spi_read_block BS s.mem_r ((s.spi_read_index_r / BS) % sbc2)
    else s.read_block_r
  let delayed_l := rb_l (s.spi_read_index_l % BS)
  let delayed_r := rb_r (s.spi_read_index_r % BS)
  match mode with
  | .pingpong =>
      let fb_l := multiply_q16 delayed_r s.delay_feedback_q16
      let pre_lpf_l := wrap32 (pingpong_mono in_l in_r + fb_l)
      let fb_r := multiply_q16 delayed_l s.delay_feedback_q16
      let pre_lpf_r := fb_r
      delay_store_mix_update BS s rb_l rb_r delayed_l delayed_r
        (lpfStep s.lpf_alpha_q16 s.lpf_state_l pre_lpf_l)
        (lpfStep s.lpf_alpha_q16 s.lpf_state_r pre_lpf_r) in_l in_r
  | m =>
      let fb : Int × Int :=
        match m with
        | .parallel =>
            (multiply_q16 delayed_l s.delay_feedback_q16,
             multiply_q16 delayed_r s.delay_feedback_q16)
        | .cross =>
            (multiply_q16 delayed_r s.delay_feedback_q16,
             multiply_q16 delayed_l s.delay_feedback_q16)
        | _ =>
            let fbm := multiply_q16 (sar1 (wrap32 (delayed_l + delayed_r)))
              s.delay_feedback_q16
            (fbm, fbm)
      let pre_lpf_l := wrap32 (in_l + fb.1)
      let pre_lpf_r := wrap32 (in_r + fb.2)
      delay_store_mix_update BS s rb_l rb_r delayed_l delayed_r
        (lpfStep s.lpf_alpha_q16 s.lpf_state_l pre_lpf_l)
        (lpfStep s.lpf_alpha_q16 s.lpf_state_r pre_lpf_r) in_l in_r

/-- Half of the logical capacity: the largest delay reachable from the
delay-time pots (delay.h line 272). -/
def PERCH_DELAY_SAMPLES : Nat := MAX_DELAY_SAMPLES / 2

/-- Smallest delay reachable from the pots: one millisecond at the fixed
48 kHz sample rate (delay.h line 273). -/
def MIN_DELAY_SAMPLES : Nat := 48000 / 1000

/-- Parameter reload of the delay effect (delay.h lines 276-299):
recompute both delay lengths, feedback, mix and dry amounts from the
stored pot row, and recompute both read cursors from the unchanged
write cursors.  The low-pass coefficient and the delay volume are
computed in the C source through float expressions (lines 286-295);
since floating point is outside this embedding and neither value feeds
the cursor or state-retention logic, both are taken as inputs.
Note the function does not touch lpf_state_l or lpf_state_r. -/
def load_delay_parms_from_memory (s : DelayState) (pot : Nat → Nat)
    (alpha_q16_from_pot volume_q16_from_pot : Nat) : DelayState :=
  let dl := MIN_DELAY_SAMPLES + pot 0 * (PERCH_DELAY_SAMPLES - MIN_DELAY_SAMPLES) / POT_MAX
  let dr := MIN_DELAY_SAMPLES + pot 1 * (PERCH_DELAY_SAMPLES - MIN_DELAY_SAMPLES) / POT_MAX
  let mix := pot 3 * Q16_ONE / POT_MAX
  { s with
    delay_samples_l := dl
    delay_samples_r := dr
    delay_feedback_q16 := pot 2 * Q16_ONE / POT_MAX
    delay_mix_q16 := mix
    delay_dry_q16 := u32sub Q16_ONE mix
    lpf_alpha_q16 := alpha_q16_from_pot
    volume_gain_q16 := volume_q16_from_pot
    spi_read_index_l := readIndexFor s.spi_write_index_l dl
    spi_read_index_r := readIndexFor s.spi_write_index_r dr }

/-- Per-block driver of the delay effect (delay.h lines 308-312):
processes the frames of a block one sample at a time. -/
def delay_process_block (BS : Nat) (mode : DelayMode) (s : DelayState) :
    List (Int × Int) → List (Int × Int) × DelayState
  | [] => ([], s)
  | f :: rest =>
      let r1 := process_audio_delay_sample BS mode s f.1 f.2
      let r2 := delay_process_block BS mode r1.2 rest
      (r1.1 :: r2.1, r2.2)

/-- Processing of a stream split into successive blocks of arbitrary
sizes, as the audio engine delivers it to delay_process_block. -/
def delay_process_chunks (BS : Nat) (mode : DelayMode) (s : DelayState) :
    List (List (Int × Int)) → List (Int × Int) × DelayState
  | [] => ([], s)
  | c :: cs =>
      let r1 := delay_process_block BS mode s c
      let r2 := delay_process_chunks BS mode r1.2 cs
      (r1.1 ++ r2.1, r2.2)

/-- Power-on state of the delay statics (delay.h lines 33-53): both
delay lengths at 48000 samples, all cursors, buffers and filter states
zero; feedback, mix, dry, volume and low-pass coefficient are left as
parameters so that theorems quantify over them. -/
def delayBootState (fb mix dry vol alpha : Nat) : DelayState :=
  { delay_samples_l := 48000
    delay_samples_r := 48000
    delay_feedback_q16 := fb
    delay_mix_q16 := mix
    delay_dry_q16 := dry
    volume_gain_q16 := vol
    lpf_alpha_q16 := alpha
    lpf_state_l := 0
    lpf_state_r := 0
    spi_write_index_l := 0
    spi_read_index_l := 0
    write_block_l := fun _ => 0
    read_block_l := fun _ => 0
    write_block_pos_l := 0
    write_block_index_l := 0
    read_block_start_index_l := 0
    spi_write_index_r := 0
    spi_read_index_r := 0
    write_block_r := fun _ => 0
    read_block_r := fun _ => 0
    write_block_pos_r := 0
    write_block_index_r := 0
    read_block_start_index_r := 0
    mem_l := fun _ => 0
    mem_r := fun _ => 0 }

/-- Delay state right after a clear-memory operation with 48000-sample
delays on both channels: the configuration of the delay-exactness
scenario. -/
def delayClearedState (BS fb mix dry vol alpha : Nat) : DelayState :=
  clear_delay_memory BS (delayBootState fb mix dry vol alpha)

/-- Input stream carried by the processed left channel in the
delay-exactness scenario: the impulse A at sample zero, silence after. -/
def xin (A : Int) (n : Nat) : Int := if n = 0 then A else 0

/-- Impulse test stream of 48001 stereo frames: the impulse on the left
channel at sample 0, silence everywhere else. -/
def impulseFrames (A : Int) : List (Int × Int) :=
  (A, 0) :: List.replicate 48000 ((0 : Int), (0 : Int))

/-- The m input frames of the impulse stream starting at sample n. -/
def streamFrames (A : Int) : Nat → Nat → List (Int × Int)
  | _, 0 => []
  | n, m + 1 => (xin A n, 0) :: streamFrames A (n + 1) m

/-! ### Ideal-state description of the impulse run

The following closed-form functions describe the exact delay state
after n samples of the impulse run (delay 48000, cleared memory,
parallel mode).  They exist only to carry the induction; the theorems
relate them back to the executable definitions above. -/

/-- Exact left low-pass state before sample n of the impulse run. -/
def lpfSeq (alpha : Nat) (A : Int) : Nat → Int
  | 0 => 0
  | n + 1 => lpfStep alpha (lpfSeq alpha A n) (xin A n)

/-- Exact left output of sample n of the impulse run: dry input mixed
with the delayed sample (zero before sample 48000, the low-passed
impulse at sample 48000), attenuated by the delay volume. -/
def outIdeal (dry mix vol alpha : Nat) (A : Int) (n : Nat) : Int :=
  multiply_q16
    (wrap32 (multiply_q16 (xin A n) dry +
      multiply_q16 (if n = 48000 then lpfSeq alpha A 1 else 0) mix)) vol

/-- The m output frames of the impulse run starting at sample n: the
left channel carries outIdeal, the right channel is silent. -/
def outFrames (dry mix vol alpha : Nat) (A : Int) : Nat → Nat → List (Int × Int)
  | _, 0 => []
  | n, m + 1 =>
      (outIdeal dry mix vol alpha A n, 0) :: outFrames dry mix vol alpha A (n + 1) m

/-- First sample index whose write-path store lands on position j of the
write block, in the impulse run (the write position starts at
48000 mod BS and advances cyclically). -/
def firstWriteAt (BS j : Nat) : Nat := (j + BS - 48000 % BS) % BS

/-- Last sample before n whose store landed on position j. -/
def lastWriteAt (BS n j : Nat) : Nat := n - 1 - ((n - 1 - firstWriteAt BS j) % BS)

/-- Exact contents of the left write block before sample n of the
impulse run. -/
def wbufIdeal (BS alpha : Nat) (A : Int) (n : Nat) : Nat → Int :=
  fun j =>
    if j < BS ∧ firstWriteAt BS j < n then
      lpfSeq alpha A (lastWriteAt BS n j + 1)
    else 0

/-- Number of write-block flushes performed strictly before sample n of
the impulse run. -/
def flushCount (BS n : Nat) : Nat := (n + 48000 % BS) / BS

/-- Ordinal of the flush that targets physical block blk (the flush
sequence starts at block 48000 / BS and walks the region cyclically). -/
def flushOrdinal (BS blk : Nat) : Nat :=
  (blk + SPI_BLOCK_COUNT BS / 2 - 48000 / BS) % (SPI_BLOCK_COUNT BS / 2)

/-- Contents at offset j of the block written by flush number t of the
impulse run. -/
def flushVal (BS alpha : Nat) (A : Int) (t j : Nat) : Int :=
  if t = 0 then
    (if j < 48000 % BS then 0 else lpfSeq alpha A (j - 48000 % BS + 1))
  else lpfSeq alpha A (BS * t + j - 48000 % BS + 1)

/-- Exact contents of the left external-memory region before sample n of
the impulse run. -/
def memIdeal (BS alpha : Nat) (A : Int) (n : Nat) : Nat → Nat :=
  fun w =>
    if w < SPI_BLOCK_COUNT BS / 2 * BS ∧ flushOrdinal BS (w / BS) < flushCount BS n then
      u32ofInt (flushVal BS alpha A (flushOrdinal BS (w / BS)) (w % BS))
    else 0

/-- Exact contents of the left read-block cache before sample n of the
impulse run: the block loaded at the latest block boundary at or before
sample n - 1. -/
def rbufIdeal (BS alpha : Nat) (A : Int) : Nat → Nat → Int
  | 0 => fun _ => 0
  | n + 1 =>
      spi_read_block BS (memIdeal BS alpha A (BS * (n / BS)))
        ((n / BS) % (SPI_BLOCK_COUNT BS / 2))

/-- Exact delay state before sample n of the impulse run. -/
def idealState (BS fb mix dry vol alpha : Nat) (A : Int) (n : Nat) : DelayState :=
  { delay_samples_l := 48000
    delay_samples_r := 48000
    delay_feedback_q16 := fb
    delay_mix_q16 := mix
    delay_dry_q16 := dry
    volume_gain_q16 := vol
    lpf_alpha_q16 := alpha
    lpf_state_l := lpfSeq alpha A n
    lpf_state_r := 0
    spi_write_index_l := 48000 + n
    spi_read_index_l := n
    write_block_l := wbufIdeal BS alpha A n
    read_block_l := rbufIdeal BS alpha A n
    write_block_pos_l := (48000 + n) % BS
    write_block_index_l := (48000 + n) / BS % (SPI_BLOCK_COUNT BS / 2)
    read_block_start_index_l := 0
    spi_write_index_r := 48000 + n
    spi_read_index_r := n
    write_block_r := fun _ => 0
    read_block_r := fun _ => 0
    write_block_pos_r := (48000 + n) % BS
    write_block_index_r := (48000 + n) / BS % (SPI_BLOCK_COUNT BS / 2)
    read_block_start_index_r := 0
    mem_l := memIdeal BS alpha A n
    mem_r := fun _ => 0 }

/-! ### Dual-core park/ack coordinator (Main.c) -/

/-- Program points of the saving core's main loop (Main.c lines
932-967): idle polling, raising the park request, waiting for the
acknowledgement, the blocking flash write, clearing the request,
waiting for the un-park, and clearing the status flags. -/
inductive Core0Loc
  | idle
  | raiseReq
  | waitAck
  | save
  | clearReq
  | waitUnpark
  | clearSaving
deriving DecidableEq, Fintype

/-- Program points of the UI core's loop (Main.c lines 664-910 with the
park loop of lines 587-595): the park check at the top of the loop, the
body with its peripheral traffic, and the parked spin. -/
inductive Core1Loc
  | top
  | work
  | parked
deriving DecidableEq, Fintype

/-- Observable action of one step of either core. -/
inductive SysEvent
  | silent
  | peripheral
  | flashWrite
deriving DecidableEq, Fintype

/-- Cross-core flags of the save protocol (Main.c lines 121-124)
together with both cores' program points. -/
structure CoordState where
  save_request : Bool
  saving_in_progress : Bool
  ui_park_req : Bool
  ui_park_ack : Bool
  pc0 : Core0Loc
  pc1 : Core1Loc
deriving DecidableEq, Fintype

/-- One step of the saving core (Main.c lines 932-967): on a pending
save request it sets saving_in_progress, then raises ui_park_req, spins
until ui_park_ack, performs the flash write, clears ui_park_req, spins
until the un-park, and clears the status flags. -/
def core0Step (s : CoordState) : CoordState × SysEvent :=
  match s.pc0 with
  | .idle =>
      if s.save_request then
        ({ s with saving_in_progress := true, pc0 := .raiseReq }, .silent)
      else (s, .silent)
  | .raiseReq => ({ s with ui_park_req := true, pc0 := .waitAck }, .silent)
  | .waitAck =>
      if s.ui_park_ack then ({ s with pc0 := .save }, .silent) else (s, .silent)
  | .save => ({ s with pc0 := .clearReq }, .flashWrite)
  | .clearReq => ({ s with ui_park_req := false, pc0 := .waitUnpark }, .silent)
  | .waitUnpark =>
      if s.ui_park_ack then (s, .silent) else ({ s with pc0 := .clearSaving }, .silent)
  | .clearSaving =>
      ({ s with saving_in_progress := false, save_request := false, pc0 := .idle },
        .silent)

/-- One step of the UI core: at the top of its loop it checks
ui_park_req (Main.c line 667) and, when set, acknowledges and parks
(lines 587-595); otherwise it runs the loop body, whose peripheral
traffic (I2C, OLED, GPIO expander) is the observable event and which
may raise save_request through the tap-hold handler (lines 436-444).
While parked it only spins until ui_park_req clears, then drops
ui_park_ack and resumes. -/
def core1Step (raiseSave : Bool) (s : CoordState) : CoordState × SysEvent :=
  match s.pc1 with
  | .top =>
      if s.ui_park_req then ({ s with ui_park_ack := true, pc1 := .parked }, .silent)
      else ({ s with pc1 := .work }, .silent)
  | .work =>
      ({ s with pc1 := .top, save_request := s.save_request || raiseSave }, .peripheral)
  | .parked =>
      if s.ui_park_req then (s, .silent)
      else ({ s with ui_park_ack := false, pc1 := .top }, .silent)

/-- Boot state of the coordinator: all flags down, both cores at the top
of their loops (Main.c lines 121-124). -/
def initCoordState : CoordState :=
  { save_request := false
    saving_in_progress := false
    ui_park_req := false
    ui_park_ack := false
    pc0 := .idle
    pc1 := .top }

/-- Reachable demonstration state for the park protocol: the UI core has
run one full loop iteration whose tap-hold handler raised the save
request, and the saving core has set saving_in_progress and raised the
park request. -/
def coordDemoState : CoordState :=
  (core0Step (core0Step (core1Step true ((core1Step false initCoordState).1)).1).1).1

/-- States reachable by interleaving steps of the two cores from boot. -/
inductive CoordReachable : CoordState → Prop
  | boot : CoordReachable initCoordState
  | c0 {s} : CoordReachable s → CoordReachable (core0Step s).1
  | c1 {s} (raiseSave : Bool) : CoordReachable s → CoordReachable (core1Step raiseSave s).1

/-- Inductive invariant of the park protocol. -/
def CoordInv (s : CoordState) : Prop :=
  (s.ui_park_ack = true ↔ s.pc1 = .parked) ∧
  (s.ui_park_req = true ↔ (s.pc0 = .waitAck ∨ s.pc0 = .save ∨ s.pc0 = .clearReq)) ∧
  (s.pc0 ≠ .idle → s.saving_in_progress = true) ∧
  (s.pc0 = .save → s.ui_park_ack = true)

/-! ### Per-block effect dispatch (Main.c lines 257-314) -/

/-- Number of known effects (ui_variables.h line 180). -/
def NUM_EFFECTS : Nat := 14

/-- Effect indices of the dispatch switch (ui_variables.h lines 165-181). -/
def CHRS_EFFECT_INDEX : Nat := 0

/-- Compressor index. -/
def COMP_EFFECT_INDEX : Nat := 1

/-- Delay index. -/
def DELAY_EFFECT_INDEX : Nat := 2

/-- Distortion index. -/
def DS_EFFECT_INDEX : Nat := 3

/-- Equalizer index. -/
def EQ_EFFECT_INDEX : Nat := 4

/-- Flanger index. -/
def FLNG_EFFECT_INDEX : Nat := 5

/-- Fuzz index. -/
def FZ_EFFECT_INDEX : Nat := 6

/-- Overdrive index. -/
def OD_EFFECT_INDEX : Nat := 7

/-- Phaser index. -/
def PHSR_EFFECT_INDEX : Nat := 8

/-- Preamp index. -/
def PREAMP_EFFECT_INDEX : Nat := 9

/-- Reverb index. -/
def REVB_EFFECT_INDEX : Nat := 10

/-- Cabinet-simulation index. -/
def CAB_SIM_EFFECT_INDEX : Nat := 11

/-- Tremolo index. -/
def TREM_EFFECT_INDEX : Nat := 12

/-- Vibrato index. -/
def VIBR_EFFECT_INDEX : Nat := 13

/-- Preamp style indices (ui_variables.h lines 52-57). -/
def FENDER : Nat := 0

/-- Vox style index. -/
def VOX_AC : Nat := 1

/-- Marshall style index. -/
def MARSHALL : Nat := 2

/-- Soldano style index. -/
def SOLDANO : Nat := 3

/-- Signature of a per-block effect processor acting on the split
left/right sample arrays. -/
def BlockProc : Type := List Int → List Int → List Int × List Int

/-- The concrete per-effect block processors that the dispatch switch of
Main.c lines 257-314 branches to.  Their bodies live in the individual
effect headers and are irrelevant to the dispatch contract, so they are
carried as parameters. -/
structure EffectBlockProcs where
  chorus : BlockProc
  compressor : BlockProc
  delayFx : BlockProc
  distortion : BlockProc
  equalizer : BlockProc
  flanger : BlockProc
  fuzz : BlockProc
  overdrive : BlockProc
  phaser : BlockProc
  preampFender : BlockProc
  preampVox : BlockProc
  preampMarshall : BlockProc
  preampSoldano : BlockProc
  reverb : BlockProc
  cabSim : BlockProc
  tremolo : BlockProc
  vibrato : BlockProc

/-- Per-slot effect dispatch (Main.c lines 257-314): a switch on the
effect id assigned to the slot; the preamp case further switches on the
selected preamp style; the default case of either switch leaves the
sample arrays untouched. -/
def process_selected_effect_block (P : EffectBlockProcs)
    (selectedEffects : Nat → Nat) (selected_preamp_style : Nat) (slot : Nat)
    (in_l in_r : List Int) : List Int × List Int :=
  if selectedEffects slot = CHRS_EFFECT_INDEX then P.chorus in_l in_r
  else if selectedEffects slot = COMP_EFFECT_INDEX then P.compressor in_l in_r
  else if selectedEffects slot = DELAY_EFFECT_INDEX then P.delayFx in_l in_r
  else if selectedEffects slot = DS_EFFECT_INDEX then P.distortion in_l in_r
  else if selectedEffects slot = EQ_EFFECT_INDEX then P.equalizer in_l in_r
  else if selectedEffects slot = FLNG_EFFECT_INDEX then P.flanger in_l in_r
  else if selectedEffects slot = FZ_EFFECT_INDEX then P.fuzz in_l in_r
  else if selectedEffects slot = OD_EFFECT_INDEX then P.overdrive in_l in_r
  else if selectedEffects slot = PHSR_EFFECT_INDEX then P.phaser in_l in_r
  else if selectedEffects slot = PREAMP_EFFECT_INDEX then
    (if selected_preamp_style = FENDER then P.preampFender in_l in_r
     else if selected_preamp_style = VOX_AC then P.preampVox in_l in_r
     else if selected_preamp_style = MARSHALL then P.preampMarshall in_l in_r
     else if selected_preamp_style = SOLDANO then P.preampSoldano in_l in_r
     else (in_l, in_r))
  else if selectedEffects slot = REVB_EFFECT_INDEX then P.reverb in_l in_r
  else if selectedEffects slot = CAB_SIM_EFFECT_INDEX then P.cabSim in_l in_r
  else if selectedEffects slot = TREM_EFFECT_INDEX then P.tremolo in_l in_r
  else if selectedEffects slot = VIBR_EFFECT_INDEX then P.vibrato in_l in_r
  else (in_l, in_r)

/-! ### Distortion parameter reload (distortion.h) -/

/-- Mutable state of the distortion effect: the Q8.24 parameters and the
twelve per-channel filter states (distortion.h lines 27-39). -/
structure DistortionState where
  ds_gain : Int
  ds_volume : Int
  ds_low_gain_q24 : Int
  ds_mid_gain_q24 : Int
  ds_mid_a_q24 : Int
  ds_high_gain_q24 : Int
  ds_asym_q24 : Int
  ds_low_state_l : Int
  ds_mid_lp_state_l : Int
  ds_mid_hp_state_l : Int
  ds_high_state_l : Int
  ds_low_state_r : Int
  ds_mid_lp_state_r : Int
  ds_mid_hp_state_r : Int
  ds_high_state_r : Int
  ds_lpf_state_l : Int
  ds_lpf_state_r : Int
  ds_hpf_state_l : Int
  ds_hpf_state_r : Int

/-- Parameter reload of the distortion effect (distortion.h lines
115-146): the six Q8.24 parameters are recomputed from the stored pot
row through float-valued pot mappings (abstracted as inputs, since the
embedding has no floating point), and every filter state of both
channels is reset to zero. -/
def load_distortion_parms_from_memory (s : DistortionState)
    (gain low_gain mid_gain mid_a high_gain volume : Int) : DistortionState :=
  { s with
    ds_gain := gain
    ds_low_gain_q24 := low_gain
    ds_mid_gain_q24 := mid_gain
    ds_mid_a_q24 := mid_a
    ds_high_gain_q24 := high_gain
    ds_volume := volume
    ds_low_state_l := 0
    ds_mid_lp_state_l := 0
    ds_mid_hp_state_l := 0
    ds_high_state_l := 0
    ds_low_state_r := 0
    ds_mid_lp_state_r := 0
    ds_mid_hp_state_r := 0
    ds_high_state_r := 0
    ds_lpf_state_l := 0
    ds_lpf_state_r := 0
    ds_hpf_state_l := 0
    ds_hpf_state_r := 0 }

/-! ### Basic facts about the machine arithmetic -/

theorem wrap32_lb (x : Int) : -2147483648 ≤ wrap32 x := by
  unfold wrap32; omega

theorem wrap32_ub (x : Int) : wrap32 x < 2147483648 := by
  unfold wrap32; omega

theorem wrap32_eq_self {x : Int} (h1 : -2147483648 ≤ x) (h2 : x < 2147483648) :
    wrap32 x = x := by
  unfold wrap32; omega

theorem wrap32_zero : wrap32 0 = 0 := by decide

theorem u32ofInt_zero : u32ofInt 0 = 0 := by decide

theorem i32ofU32_zero : i32ofU32 0 = 0 := by decide

theorem i32ofU32_u32ofInt {x : Int} (h1 : -2147483648 ≤ x) (h2 : x < 2147483648) :
    i32ofU32 (u32ofInt x) = x := by
  unfold i32ofU32 u32ofInt wrap32; omega

theorem sar1_eq (x : Int) : sar1 x = x / 2 := by
  unfold sar1; rw [Int.fdiv_eq_ediv _ (by decide)]

theorem multiply_q16_eq (a : Int) (b : Nat) :
    multiply_q16 a b = wrap32 ((a * (b : Int)) / 65536) := by
  unfold multiply_q16; rw [Int.fdiv_eq_ediv _ (by decide)]

theorem multiply_q16_zero (b : Nat) : multiply_q16 0 b = 0 := by
  rw [multiply_q16_eq]; norm_num [wrap32_zero]

theorem multiply_q16_bounds (a : Int) (b : Nat) :
    -2147483648 ≤ multiply_q16 a b ∧ multiply_q16 a b < 2147483648 :=
  ⟨wrap32_lb _, wrap32_ub _⟩

/-- With a Q16 factor of at most one, multiply_q16 cannot increase the
magnitude of an in-range int32 sample, and it keeps its sign. -/
theorem multiply_q16_le_abs {x : Int} {v : Nat} (hv : v ≤ 65536)
    (h1 : -2147483648 ≤ x) (h2 : x < 2147483648) :
    (multiply_q16 x v).natAbs ≤ x.natAbs ∧
      (0 ≤ x → 0 ≤ multiply_q16 x v ∧ multiply_q16 x v ≤ x) ∧
      (x ≤ 0 → x ≤ multiply_q16 x v ∧ multiply_q16 x v ≤ 0) := by
  rw [multiply_q16_eq]
  have hv' : (v : Int) ≤ 65536 := by exact_mod_cast hv
  have hv0 : (0 : Int) ≤ (v : Int) := Int.ofNat_nonneg v
  rcases le_or_lt 0 x with hx | hx
  · have hp0 : (0 : Int) ≤ x * v := mul_nonneg hx hv0
    have hple : x * v ≤ x * 65536 := mul_le_mul_of_nonneg_left hv' hx
    have hq0 : (0 : Int) ≤ x * v / 65536 := Int.ediv_nonneg hp0 (by decide)
    have hqle : x * v / 65536 ≤ x * 65536 / 65536 :=
      Int.ediv_le_ediv (by decide) hple
    rw [Int.mul_ediv_cancel _ (by decide)] at hqle
    rw [wrap32_eq_self (by omega) (by omega)]
    omega
  · have hp0 : x * v ≤ 0 := mul_nonpos_of_nonpos_of_nonneg (le_of_lt hx) hv0
    have hple : x * 65536 ≤ x * v := mul_le_mul_of_nonpos_left hv' (le_of_lt hx)
    have hq0 : x * v / 65536 ≤ 0 := by
      have := Int.ediv_le_ediv (c := 65536) (by decide) hp0
      simpa using this
    have hqle : x * 65536 / 65536 ≤ x * v / 65536 :=
      Int.ediv_le_ediv (by decide) hple
    rw [Int.mul_ediv_cancel _ (by decide)] at hqle
    rw [wrap32_eq_self (by omega) (by omega)]
    omega

theorem update_volume_from_pot_le {p : Nat} (hp : p ≤ POT_MAX) :
    update_volume_from_pot p ≤ 65536 := by
  unfold update_volume_from_pot Q16_ONE POT_MAX at *
  calc p * 65536 / 4095 ≤ 4095 * 65536 / 4095 :=
        Nat.div_le_div_right (Nat.mul_le_mul_right _ hp)
    _ = 65536 := by norm_num

/-! ### C4 : saturation -/

/-- Claim C4, counterexample: the clamping helper does not confine its
result to the 24-bit signed integer range.  At input 2^23 = 8388608 it
returns 8388608, which exceeds 2^23 - 1; the helper's actual clamping
bound is PEAK_MAX = 0x7FFFFF00, the largest 24-bit sample value in the
engine's left-aligned 32-bit sample container. -/
theorem saturation_claim_false :
    clamp24 8388608 = 8388608 ∧ ¬(8388608 : Int) ≤ 2 ^ 23 - 1 := by
  constructor
  · unfold clamp24 PEAK_MAX; norm_num
  · norm_num

/-- Claim C4, amended: every value produced by the clamping helper lies
in the engine's 24-bit sample-container range [-PEAK_MAX, PEAK_MAX]
with PEAK_MAX = 0x7FFFFF00 (clamping, never wrapping), and the
master-volume stage, whose gain is at most Q16 one for any legal pot
reading, never increases a sample's magnitude, so its outputs stay in
that range whenever its inputs are in it; the volume stage itself
applies no clamping. -/
theorem saturation_amended :
    (∀ x : Int, -PEAK_MAX ≤ clamp24 x ∧ clamp24 x ≤ PEAK_MAX) ∧
    (∀ (l r : Int) (p : Nat), p ≤ POT_MAX →
      -PEAK_MAX ≤ l → l ≤ PEAK_MAX → -PEAK_MAX ≤ r → r ≤ PEAK_MAX →
      ((process_audio_volume_sample (update_volume_from_pot p) l r).1.natAbs ≤ l.natAbs ∧
       (process_audio_volume_sample (update_volume_from_pot p) l r).2.natAbs ≤ r.natAbs ∧
       -PEAK_MAX ≤ (process_audio_volume_sample (update_volume_from_pot p) l r).1 ∧
       (process_audio_volume_sample (update_volume_from_pot p) l r).1 ≤ PEAK_MAX ∧
       -PEAK_MAX ≤ (process_audio_volume_sample (update_volume_from_pot p) l r).2 ∧
       (process_audio_volume_sample (update_volume_from_pot p) l r).2 ≤ PEAK_MAX)) := by
  constructor
  · intro x
    unfold clamp24 PEAK_MAX
    split_ifs <;> omega
  · intro l r p hp hl1 hl2 hr1 hr2
    have hv := update_volume_from_pot_le hp
    have hP : PEAK_MAX = 2147483392 := rfl
    have hL := multiply_q16_le_abs (x := l) hv (by omega) (by omega)
    have hR := multiply_q16_le_abs (x := r) hv (by omega) (by omega)
    unfold process_audio_volume_sample
    refine ⟨hL.1, hR.1, ?_, ?_, ?_, ?_⟩ <;>
      rcases hL with ⟨-, hLp, hLn⟩ <;> rcases hR with ⟨-, hRp, hRn⟩ <;> omega

/-- Witness for the amended C4 theorem at concrete inputs. -/
theorem saturation_amended_witness :
    -PEAK_MAX ≤ clamp24 5000000000 ∧ clamp24 5000000000 ≤ PEAK_MAX ∧
    (process_audio_volume_sample (update_volume_from_pot 4095) 8388608 (-256)).1.natAbs ≤
      (8388608 : Int).natAbs := by
  refine ⟨(saturation_amended.1 5000000000).1, (saturation_amended.1 5000000000).2, ?_⟩
  exact (saturation_amended.2 8388608 (-256) 4095 (by decide) (by decide) (by decide)
    (by decide) (by decide)).1

/-! ### C7 : configure re-zeroes state -/

/-- Claim C7, counterexample: the delay effect is an EffectModule whose
parameter reload does not re-zero its filter state.  Starting from a
state whose left low-pass state is 7, load_delay_parms_from_memory
leaves it at 7. -/
theorem configure_rezero_claim_false :
    (load_delay_parms_from_memory
      { delayBootState 0 0 0 0 0 with lpf_state_l := 7 } (fun _ => 0) 0 0).lpf_state_l = 7 ∧
    (7 : Int) ≠ 0 := by
  exact ⟨rfl, by decide⟩

/-- Claim C7, amended: the distortion effect's parameter reload re-zeroes
every one of its filter states, as the claim describes; the delay
effect's parameter reload however leaves both low-pass filter states
untouched (by design, they are reset only by the clear-memory
operation), so the claim does not hold of every EffectModule. -/
theorem configure_rezero_amended :
    (∀ (s : DistortionState) (g lg mg ma hg v : Int),
      ((load_distortion_parms_from_memory s g lg mg ma hg v).ds_low_state_l = 0 ∧
       (load_distortion_parms_from_memory s g lg mg ma hg v).ds_mid_lp_state_l = 0 ∧
       (load_distortion_parms_from_memory s g lg mg ma hg v).ds_mid_hp_state_l = 0 ∧
       (load_distortion_parms_from_memory s g lg mg ma hg v).ds_high_state_l = 0 ∧
       (load_distortion_parms_from_memory s g lg mg ma hg v).ds_low_state_r = 0 ∧
       (load_distortion_parms_from_memory s g lg mg ma hg v).ds_mid_lp_state_r = 0 ∧
       (load_distortion_parms_from_memory s g lg mg ma hg v).ds_mid_hp_state_r = 0 ∧
       (load_distortion_parms_from_memory s g lg mg ma hg v).ds_high_state_r = 0 ∧
       (load_distortion_parms_from_memory s g lg mg ma hg v).ds_lpf_state_l = 0 ∧
       (load_distortion_parms_from_memory s g lg mg ma hg v).ds_lpf_state_r = 0 ∧
       (load_distortion_parms_from_memory s g lg mg ma hg v).ds_hpf_state_l = 0 ∧
       (load_distortion_parms_from_memory s g lg mg ma hg v).ds_hpf_state_r = 0)) ∧
    (∀ (s : DelayState) (pot : Nat → Nat) (a v : Nat),
      (load_delay_parms_from_memory s pot a v).lpf_state_l = s.lpf_state_l ∧
      (load_delay_parms_from_memory s pot a v).lpf_state_r = s.lpf_state_r) := by
  exact ⟨fun s g lg mg ma hg v =>
      ⟨rfl, rfl, rfl, rfl, rfl, rfl, rfl, rfl, rfl, rfl, rfl, rfl⟩,
    fun s pot a v => ⟨rfl, rfl⟩⟩

/-! ### C9 : invalid effect id passthrough -/

/-- Claim C9: for every slot whose assigned effect id lies outside the
known range (at least NUM_EFFECTS = 14), the per-block dispatch reaches
the default branch of the switch and returns the left and right sample
arrays unchanged, for every block and every choice of the per-effect
processors. -/
theorem invalid_effect_passthrough (P : EffectBlockProcs)
    (selectedEffects : Nat → Nat) (style slot : Nat) (in_l in_r : List Int)
    (h : NUM_EFFECTS ≤ selectedEffects slot) :
    process_selected_effect_block P selectedEffects style slot in_l in_r =
      (in_l, in_r) := by
  unfold process_selected_effect_block
  unfold NUM_EFFECTS at h
  unfold CHRS_EFFECT_INDEX COMP_EFFECT_INDEX DELAY_EFFECT_INDEX DS_EFFECT_INDEX
    EQ_EFFECT_INDEX FLNG_EFFECT_INDEX FZ_EFFECT_INDEX OD_EFFECT_INDEX
    PHSR_EFFECT_INDEX PREAMP_EFFECT_INDEX REVB_EFFECT_INDEX CAB_SIM_EFFECT_INDEX
    TREM_EFFECT_INDEX VIBR_EFFECT_INDEX
  rw [if_neg (show ¬selectedEffects slot = 0 by omega),
    if_neg (show ¬selectedEffects slot = 1 by omega),
    if_neg (show ¬selectedEffects slot = 2 by omega),
    if_neg (show ¬selectedEffects slot = 3 by omega),
    if_neg (show ¬selectedEffects slot = 4 by omega),
    if_neg (show ¬selectedEffects slot = 5 by omega),
    if_neg (show ¬selectedEffects slot = 6 by omega),
    if_neg (show ¬selectedEffects slot = 7 by omega),
    if_neg (show ¬selectedEffects slot = 8 by omega),
    if_neg (show ¬selectedEffects slot = 9 by omega),
    if_neg (show ¬selectedEffects slot = 10 by omega),
    if_neg (show ¬selectedEffects slot = 11 by omega),
    if_neg (show ¬selectedEffects slot = 12 by omega),
    if_neg (show ¬selectedEffects slot = 13 by omega)]

/-- Witness for C9: an out-of-range effect id (14) on a 100-frame block,
with nontrivial processors installed, passes the block through
unchanged. -/
theorem invalid_effect_passthrough_witness :
    process_selected_effect_block
      { chorus := fun l r => (l.map (· + 1), r), compressor := fun l r => (l.map (· + 1), r),
        delayFx := fun l r => (l.map (· + 1), r), distortion := fun l r => (l.map (· + 1), r),
        equalizer := fun l r => (l.map (· + 1), r), flanger := fun l r => (l.map (· + 1), r),
        fuzz := fun l r => (l.map (· + 1), r), overdrive := fun l r => (l.map (· + 1), r),
        phaser := fun l r => (l.map (· + 1), r), preampFender := fun l r => (l.map (· + 1), r),
        preampVox := fun l r => (l.map (· + 1), r),
        preampMarshall := fun l r => (l.map (· + 1), r),
        preampSoldano := fun l r => (l.map (· + 1), r), reverb := fun l r => (l.map (· + 1), r),
        cabSim := fun l r => (l.map (· + 1), r), tremolo := fun l r => (l.map (· + 1), r),
        vibrato := fun l r => (l.map (· + 1), r) }
      (fun _ => 14) 2 0 (List.replicate 100 7) (List.replicate 100 (-7)) =
      (List.replicate 100 7, List.replicate 100 (-7)) :=
  invalid_effect_passthrough _ (fun _ => 14) 2 0 _ _ (by decide)

/-! ### C10 : write-block position bounds -/

@[simp] theorem delay_store_mix_update_pos_l (BS : Nat) (s : DelayState)
    (rb_l rb_r : Nat → Int) (delayed_l delayed_r lpf_l lpf_r in_l in_r : Int) :
    (delay_store_mix_update BS s rb_l rb_r delayed_l delayed_r lpf_l lpf_r
        in_l in_r).2.write_block_pos_l =
      (if BS ≤ s.write_block_pos_l + 1 then 0 else s.write_block_pos_l + 1) :=
  rfl

@[simp] theorem delay_store_mix_update_pos_r (BS : Nat) (s : DelayState)
    (rb_l rb_r : Nat → Int) (delayed_l delayed_r lpf_l lpf_r in_l in_r : Int) :
    (delay_store_mix_update BS s rb_l rb_r delayed_l delayed_r lpf_l lpf_r
        in_l in_r).2.write_block_pos_r =
      (if BS ≤ s.write_block_pos_r + 1 then 0 else s.write_block_pos_r + 1) :=
  rfl

/-- Claim C10: in every mode, one processed sample keeps both write-block
positions strictly below the block size: the store of this sample
indexes the write block at the in-bounds position it found, and the
position is advanced, with a flush and reset to zero exactly when it
reaches the block size. -/
theorem write_block_pos_in_bounds (BS : Nat) (mode : DelayMode) (s : DelayState)
    (in_l in_r : Int) (hBS : 0 < BS) (hl : s.write_block_pos_l < BS)
    (hr : s.write_block_pos_r < BS) :
    (process_audio_delay_sample BS mode s in_l in_r).2.write_block_pos_l < BS ∧
    (process_audio_delay_sample BS mode s in_l in_r).2.write_block_pos_r < BS := by
  cases mode <;>
    simp only [process_audio_delay_sample, delay_store_mix_update_pos_l,
      delay_store_mix_update_pos_r] <;>
    constructor <;> split <;> omega

/-- Witness for C10 at a concrete state and block size. -/
theorem write_block_pos_in_bounds_witness :
    (process_audio_delay_sample 16384 DelayMode.parallel
        (delayClearedState 16384 0 0 0 0 0) 1 1).2.write_block_pos_l < 16384 ∧
    (process_audio_delay_sample 16384 DelayMode.parallel
        (delayClearedState 16384 0 0 0 0 0) 1 1).2.write_block_pos_r < 16384 :=
  write_block_pos_in_bounds 16384 DelayMode.parallel _ 1 1 (by decide)
    (by decide) (by decide)

/-! ### Field lemmas for the delay step -/

@[simp] theorem delay_store_mix_update_windex_l (BS : Nat) (s : DelayState)
    (rb_l rb_r : Nat → Int) (delayed_l delayed_r lpf_l lpf_r in_l in_r : Int) :
    (delay_store_mix_update BS s rb_l rb_r delayed_l delayed_r lpf_l lpf_r
        in_l in_r).2.spi_write_index_l = (s.spi_write_index_l + 1) % MAX_DELAY_SAMPLES :=
  rfl

@[simp] theorem delay_store_mix_update_windex_r (BS : Nat) (s : DelayState)
    (rb_l rb_r : Nat → Int) (delayed_l delayed_r lpf_l lpf_r in_l in_r : Int) :
    (delay_store_mix_update BS s rb_l rb_r delayed_l delayed_r lpf_l lpf_r
        in_l in_r).2.spi_write_index_r = (s.spi_write_index_r + 1) % MAX_DELAY_SAMPLES :=
  rfl

@[simp] theorem delay_store_mix_update_rindex_l (BS : Nat) (s : DelayState)
    (rb_l rb_r : Nat → Int) (delayed_l delayed_r lpf_l lpf_r in_l in_r : Int) :
    (delay_store_mix_update BS s rb_l rb_r delayed_l delayed_r lpf_l lpf_r
        in_l in_r).2.spi_read_index_l =
      readIndexFor ((s.spi_write_index_l + 1) % MAX_DELAY_SAMPLES) s.delay_samples_l :=
  rfl

@[simp] theorem delay_store_mix_update_rindex_r (BS : Nat) (s : DelayState)
    (rb_l rb_r : Nat → Int) (delayed_l delayed_r lpf_l lpf_r in_l in_r : Int) :
    (delay_store_mix_update BS s rb_l rb_r delayed_l delayed_r lpf_l lpf_r
        in_l in_r).2.spi_read_index_r =
      readIndexFor ((s.spi_write_index_r + 1) % MAX_DELAY_SAMPLES) s.delay_samples_r :=
  rfl

@[simp] theorem delay_store_mix_update_dsamples_l (BS : Nat) (s : DelayState)
    (rb_l rb_r : Nat → Int) (delayed_l delayed_r lpf_l lpf_r in_l in_r : Int) :
    (delay_store_mix_update BS s rb_l rb_r delayed_l delayed_r lpf_l lpf_r
        in_l in_r).2.delay_samples_l = s.delay_samples_l :=
  rfl

@[simp] theorem delay_store_mix_update_dsamples_r (BS : Nat) (s : DelayState)
    (rb_l rb_r : Nat → Int) (delayed_l delayed_r lpf_l lpf_r in_l in_r : Int) :
    (delay_store_mix_update BS s rb_l rb_r delayed_l delayed_r lpf_l lpf_r
        in_l in_r).2.delay_samples_r = s.delay_samples_r :=
  rfl

@[simp] theorem delay_store_mix_update_lpf_l (BS : Nat) (s : DelayState)
    (rb_l rb_r : Nat → Int) (delayed_l delayed_r lpf_l lpf_r in_l in_r : Int) :
    (delay_store_mix_update BS s rb_l rb_r delayed_l delayed_r lpf_l lpf_r
        in_l in_r).2.lpf_state_l = lpf_l :=
  rfl

@[simp] theorem delay_store_mix_update_lpf_r (BS : Nat) (s : DelayState)
    (rb_l rb_r : Nat → Int) (delayed_l delayed_r lpf_l lpf_r in_l in_r : Int) :
    (delay_store_mix_update BS s rb_l rb_r delayed_l delayed_r lpf_l lpf_r
        in_l in_r).2.lpf_state_r = lpf_r :=
  rfl

@[simp] theorem delay_store_mix_update_wb_l (BS : Nat) (s : DelayState)
    (rb_l rb_r : Nat → Int) (delayed_l delayed_r lpf_l lpf_r in_l in_r : Int) :
    (delay_store_mix_update BS s rb_l rb_r delayed_l delayed_r lpf_l lpf_r
        in_l in_r).2.write_block_l =
      fun j => if j = s.write_block_pos_l then lpf_l else s.write_block_l j :=
  rfl

@[simp] theorem delay_store_mix_update_wb_r (BS : Nat) (s : DelayState)
    (rb_l rb_r : Nat → Int) (delayed_l delayed_r lpf_l lpf_r in_l in_r : Int) :
    (delay_store_mix_update BS s rb_l rb_r delayed_l delayed_r lpf_l lpf_r
        in_l in_r).2.write_block_r =
      fun j => if j = s.write_block_pos_r then lpf_r else s.write_block_r j :=
  rfl

@[simp] theorem delay_store_mix_update_out_l (BS : Nat) (s : DelayState)
    (rb_l rb_r : Nat → Int) (delayed_l delayed_r lpf_l lpf_r in_l in_r : Int) :
    (delay_store_mix_update BS s rb_l rb_r delayed_l delayed_r lpf_l lpf_r
        in_l in_r).1.1 =
      multiply_q16 (wrap32 (multiply_q16 in_l s.delay_dry_q16 +
        multiply_q16 delayed_l s.delay_mix_q16)) s.volume_gain_q16 :=
  rfl

@[simp] theorem delay_store_mix_update_out_r (BS : Nat) (s : DelayState)
    (rb_l rb_r : Nat → Int) (delayed_l delayed_r lpf_l lpf_r in_l in_r : Int) :
    (delay_store_mix_update BS s rb_l rb_r delayed_l delayed_r lpf_l lpf_r
        in_l in_r).1.2 =
      multiply_q16 (wrap32 (multiply_q16 in_r s.delay_dry_q16 +
        multiply_q16 delayed_r s.delay_mix_q16)) s.volume_gain_q16 :=
  rfl

/-! ### C1 : cursor invariant -/

theorem readIndexFor_lt (w d : Nat) : readIndexFor w d < MAX_DELAY_SAMPLES :=
  Nat.mod_lt _ (by norm_num [MAX_DELAY_SAMPLES])

theorem readIndexFor_eq {w d : Nat} (hw : w < MAX_DELAY_SAMPLES)
    (hd : d ≤ MAX_DELAY_SAMPLES) :
    readIndexFor w d = (w + MAX_DELAY_SAMPLES - d) % MAX_DELAY_SAMPLES := by
  unfold readIndexFor u32sub MAX_DELAY_SAMPLES at *
  omega

theorem load_delay_samples_le {p : Nat} (hp : p ≤ POT_MAX) :
    MIN_DELAY_SAMPLES + p * (PERCH_DELAY_SAMPLES - MIN_DELAY_SAMPLES) / POT_MAX ≤
      MAX_DELAY_SAMPLES := by
  unfold MIN_DELAY_SAMPLES PERCH_DELAY_SAMPLES MAX_DELAY_SAMPLES POT_MAX at *
  have h1 : p * (98304 / 2 - 48000 / 1000) / 4095 ≤ 4095 * 49104 / 4095 := by
    norm_num
    exact Nat.div_le_div_right (Nat.mul_le_mul_right _ hp)
  omega

/-- Claim C1: after one processed sample (any mode) and after a
parameter reload, each channel's read cursor equals
(write cursor + MAX_DELAY_SAMPLES - delay_samples) mod
MAX_DELAY_SAMPLES, and both cursors are reduced modulo the logical
capacity. -/
theorem delay_cursor_invariant (BS : Nat) (mode : DelayMode) (s : DelayState)
    (in_l in_r : Int) (pot : Nat → Nat) (a v : Nat)
    (hdl : s.delay_samples_l ≤ MAX_DELAY_SAMPLES)
    (hdr : s.delay_samples_r ≤ MAX_DELAY_SAMPLES)
    (hwl : s.spi_write_index_l < MAX_DELAY_SAMPLES)
    (hwr : s.spi_write_index_r < MAX_DELAY_SAMPLES)
    (hp0 : pot 0 ≤ POT_MAX) (hp1 : pot 1 ≤ POT_MAX) :
    (let s1 := (process_audio_delay_sample BS mode s in_l in_r).2
     s1.spi_read_index_l =
        (s1.spi_write_index_l + MAX_DELAY_SAMPLES - s1.delay_samples_l) %
          MAX_DELAY_SAMPLES ∧
     s1.spi_read_index_r =
        (s1.spi_write_index_r + MAX_DELAY_SAMPLES - s1.delay_samples_r) %
          MAX_DELAY_SAMPLES ∧
     s1.spi_write_index_l < MAX_DELAY_SAMPLES ∧
     s1.spi_read_index_l < MAX_DELAY_SAMPLES ∧
     s1.spi_write_index_r < MAX_DELAY_SAMPLES ∧
     s1.spi_read_index_r < MAX_DELAY_SAMPLES) ∧
    (let s2 := load_delay_parms_from_memory s pot a v
     s2.spi_read_index_l =
        (s2.spi_write_index_l + MAX_DELAY_SAMPLES - s2.delay_samples_l) %
          MAX_DELAY_SAMPLES ∧
     s2.spi_read_index_r =
        (s2.spi_write_index_r + MAX_DELAY_SAMPLES - s2.delay_samples_r) %
          MAX_DELAY_SAMPLES ∧
     s2.spi_write_index_l < MAX_DELAY_SAMPLES ∧
     s2.spi_read_index_l < MAX_DELAY_SAMPLES ∧
     s2.spi_write_index_r < MAX_DELAY_SAMPLES ∧
     s2.spi_read_index_r < MAX_DELAY_SAMPLES) := by
  have hMAX : 0 < MAX_DELAY_SAMPLES := by norm_num [MAX_DELAY_SAMPLES]
  constructor
  · cases mode <;>
      · simp only [process_audio_delay_sample, delay_store_mix_update_rindex_l,
          delay_store_mix_update_rindex_r, delay_store_mix_update_windex_l,
          delay_store_mix_update_windex_r, delay_store_mix_update_dsamples_l,
          delay_store_mix_update_dsamples_r]
        exact ⟨readIndexFor_eq (Nat.mod_lt _ hMAX) hdl,
          readIndexFor_eq (Nat.mod_lt _ hMAX) hdr,
          Nat.mod_lt _ hMAX, readIndexFor_lt _ _, Nat.mod_lt _ hMAX,
          readIndexFor_lt _ _⟩
  · exact ⟨readIndexFor_eq hwl (load_delay_samples_le hp0),
      readIndexFor_eq hwr (load_delay_samples_le hp1),
      hwl, readIndexFor_lt _ _, hwr, readIndexFor_lt _ _⟩

/-- Witness for C1 at a concrete state, pot row and block size. -/
theorem delay_cursor_invariant_witness :
    (let s1 := (process_audio_delay_sample 16384 DelayMode.cross
        (delayClearedState 16384 0 0 0 0 0) 5 (-5)).2
     s1.spi_read_index_l =
        (s1.spi_write_index_l + MAX_DELAY_SAMPLES - s1.delay_samples_l) %
          MAX_DELAY_SAMPLES ∧
     s1.spi_read_index_r =
        (s1.spi_write_index_r + MAX_DELAY_SAMPLES - s1.delay_samples_r) %
          MAX_DELAY_SAMPLES ∧
     s1.spi_write_index_l < MAX_DELAY_SAMPLES ∧
     s1.spi_read_index_l < MAX_DELAY_SAMPLES ∧
     s1.spi_write_index_r < MAX_DELAY_SAMPLES ∧
     s1.spi_read_index_r < MAX_DELAY_SAMPLES) ∧
    (let s2 := load_delay_parms_from_memory (delayClearedState 16384 0 0 0 0 0)
        (fun _ => 4095) 100 100
     s2.spi_read_index_l =
        (s2.spi_write_index_l + MAX_DELAY_SAMPLES - s2.delay_samples_l) %
          MAX_DELAY_SAMPLES ∧
     s2.spi_read_index_r =
        (s2.spi_write_index_r + MAX_DELAY_SAMPLES - s2.delay_samples_r) %
          MAX_DELAY_SAMPLES ∧
     s2.spi_write_index_l < MAX_DELAY_SAMPLES ∧
     s2.spi_read_index_l < MAX_DELAY_SAMPLES ∧
     s2.spi_write_index_r < MAX_DELAY_SAMPLES ∧
     s2.spi_read_index_r < MAX_DELAY_SAMPLES) :=
  delay_cursor_invariant 16384 DelayMode.cross (delayClearedState 16384 0 0 0 0 0)
    5 (-5) (fun _ => 4095) 100 100 (by decide) (by decide) (by decide) (by decide)
    (by decide) (by decide)

/-! ### C6 : low-pass placement on the write path and state persistence -/

/-- Claim C6: in every mode, the value stored into each channel's write
block at this sample's position is the channel's updated one-pole
low-pass state; in parallel mode that state is the low-pass of the
post-feedback signal (input plus feedback of the raw delayed sample)
while the wet term of the output mix uses the raw delayed sample read
back from the delay buffer, not a low-passed one; an ordinary parameter
reload leaves both low-pass states untouched, and only the explicit
clear-memory operation resets them to zero. -/
theorem delay_lpf_write_path (BS : Nat) (s : DelayState) (in_l in_r : Int)
    (pot : Nat → Nat) (a v : Nat) :
    (∀ mode : DelayMode,
      (process_audio_delay_sample BS mode s in_l in_r).2.write_block_l
          s.write_block_pos_l =
        (process_audio_delay_sample BS mode s in_l in_r).2.lpf_state_l ∧
      (process_audio_delay_sample BS mode s in_l in_r).2.write_block_r
          s.write_block_pos_r =
        (process_audio_delay_sample BS mode s in_l in_r).2.lpf_state_r) ∧
    ((process_audio_delay_sample BS DelayMode.parallel s in_l in_r).2.lpf_state_l =
      lpfStep s.lpf_alpha_q16 s.lpf_state_l
        (wrap32 (in_l + multiply_q16 (delay_read_l BS s) s.delay_feedback_q16)) ∧
     (process_audio_delay_sample BS DelayMode.parallel s in_l in_r).1.1 =
      multiply_q16 (wrap32 (multiply_q16 in_l s.delay_dry_q16 +
        multiply_q16 (delay_read_l BS s) s.delay_mix_q16)) s.volume_gain_q16) ∧
    ((load_delay_parms_from_memory s pot a v).lpf_state_l = s.lpf_state_l ∧
     (load_delay_parms_from_memory s pot a v).lpf_state_r = s.lpf_state_r) ∧
    ((clear_delay_memory BS s).lpf_state_l = 0 ∧
     (clear_delay_memory BS s).lpf_state_r = 0) := by
  refine ⟨?_, ⟨rfl, rfl⟩, ⟨rfl, rfl⟩, rfl, rfl⟩
  intro mode
  cases mode <;>
    · simp only [process_audio_delay_sample, delay_store_mix_update_wb_l,
        delay_store_mix_update_wb_r, delay_store_mix_update_lpf_l,
        delay_store_mix_update_lpf_r]
      exact ⟨if_pos trivial, if_pos trivial⟩

/-! ### C5 : ping-pong mono downmix -/

theorem zero_blocks_of_zero (BS : Nat) :
    ∀ k, zero_blocks BS (fun _ => 0) k = fun _ => 0 := by
  intro k
  induction k with
  | zero => rfl
  | succ k ih =>
      funext w
      simp only [zero_blocks, spi_write_block, ih]
      split
      · exact congrArg Int.toNat rfl
      · rfl

theorem delay_read_cleared (BS f m d v a : Nat) :
    delay_read_l BS (delayClearedState BS f m d v a) = 0 ∧
    delay_read_r BS (delayClearedState BS f m d v a) = 0 := by
  unfold delay_read_l delay_read_r delayClearedState clear_delay_memory delayBootState
  simp [spi_read_block, zero_blocks_of_zero, i32ofU32_zero]

theorem lpfStep_zero (alpha : Nat) : lpfStep alpha 0 0 = 0 := by
  unfold lpfStep
  rw [show ((0 : Int) - 0) = 0 by ring, wrap32_zero, multiply_q16_zero]
  rw [show ((0 : Int) + 0) = 0 by ring, wrap32_zero]

theorem process_pingpong_stored (BS : Nat) (s : DelayState) (in_l in_r : Int) :
    (process_audio_delay_sample BS DelayMode.pingpong s in_l in_r).2.write_block_l
        s.write_block_pos_l =
      lpfStep s.lpf_alpha_q16 s.lpf_state_l
        (wrap32 (pingpong_mono in_l in_r +
          multiply_q16 (delay_read_r BS s) s.delay_feedback_q16)) ∧
    (process_audio_delay_sample BS DelayMode.pingpong s in_l in_r).2.write_block_r
        s.write_block_pos_r =
      lpfStep s.lpf_alpha_q16 s.lpf_state_r
        (multiply_q16 (delay_read_l BS s) s.delay_feedback_q16) := by
  simp only [process_audio_delay_sample, delay_store_mix_update_wb_l,
    delay_store_mix_update_wb_r]
  exact ⟨if_pos trivial, if_pos trivial⟩

/-- Claim C5, counterexample: the ping-pong mono downmix of the
equal-and-opposite pair (1, -1) is -1, not zero (the two arithmetic
right shifts round towards minus infinity), and with cleared delay
memory and low-pass coefficient Q16 one this pair stores -1, not
silence, into the left write block. -/
theorem pingpong_mono_sum_claim_false :
    pingpong_mono 1 (-1) = -1 ∧
    (process_audio_delay_sample 16384 DelayMode.pingpong
        (delayClearedState 16384 0 0 0 0 65536) 1 (-1)).2.write_block_l
        (delayClearedState 16384 0 0 0 0 65536).write_block_pos_l = -1 ∧
    (-1 : Int) ≠ 0 := by
  refine ⟨by decide, ?_, by decide⟩
  rw [(process_pingpong_stored 16384 _ 1 (-1)).1, (delay_read_cleared 16384 0 0 0 0 65536).2]
  decide

/-- Claim C5, amended: for every equal-and-opposite pair of even
samples, the ping-pong mono downmix is exactly zero, and with cleared
delay memory such a pair stores zero (silence) into both write blocks;
for an odd pair the downmix is off by one least significant bit. -/
theorem pingpong_mono_sum_amended (BS f mix dry vol alpha : Nat) (l : Int)
    (heven : l % 2 = 0) :
    pingpong_mono l (-l) = 0 ∧
    (process_audio_delay_sample BS DelayMode.pingpong
        (delayClearedState BS f mix dry vol alpha) l (-l)).2.write_block_l
        (delayClearedState BS f mix dry vol alpha).write_block_pos_l = 0 ∧
    (process_audio_delay_sample BS DelayMode.pingpong
        (delayClearedState BS f mix dry vol alpha) l (-l)).2.write_block_r
        (delayClearedState BS f mix dry vol alpha).write_block_pos_r = 0 := by
  have hmono : pingpong_mono l (-l) = 0 := by
    unfold pingpong_mono
    rw [sar1_eq, sar1_eq, show l / 2 + (-l) / 2 = 0 by omega, wrap32_zero]
  refine ⟨hmono, ?_, ?_⟩
  · rw [(process_pingpong_stored BS _ l (-l)).1,
      (delay_read_cleared BS f mix dry vol alpha).2, hmono]
    have hcl : (delayClearedState BS f mix dry vol alpha).lpf_alpha_q16 = alpha := rfl
    have hc0 : (delayClearedState BS f mix dry vol alpha).lpf_state_l = 0 := rfl
    have hcf : (delayClearedState BS f mix dry vol alpha).delay_feedback_q16 = f := rfl
    rw [hcl, hc0, hcf, multiply_q16_zero,
      show ((0 : Int) + 0) = 0 by ring, wrap32_zero, lpfStep_zero]
  · rw [(process_pingpong_stored BS _ l (-l)).2,
      (delay_read_cleared BS f mix dry vol alpha).1]
    have hcl : (delayClearedState BS f mix dry vol alpha).lpf_alpha_q16 = alpha := rfl
    have hc0 : (delayClearedState BS f mix dry vol alpha).lpf_state_r = 0 := rfl
    have hcf : (delayClearedState BS f mix dry vol alpha).delay_feedback_q16 = f := rfl
    rw [hcl, hc0, hcf, multiply_q16_zero, lpfStep_zero]

/-- Witness for the amended C5 theorem at a concrete even pair. -/
theorem pingpong_mono_sum_amended_witness :
    pingpong_mono 2 (-2) = 0 ∧
    (process_audio_delay_sample 16384 DelayMode.pingpong
        (delayClearedState 16384 3 4 5 6 7) 2 (-2)).2.write_block_l
        (delayClearedState 16384 3 4 5 6 7).write_block_pos_l = 0 ∧
    (process_audio_delay_sample 16384 DelayMode.pingpong
        (delayClearedState 16384 3 4 5 6 7) 2 (-2)).2.write_block_r
        (delayClearedState 16384 3 4 5 6 7).write_block_pos_r = 0 :=
  pingpong_mono_sum_amended 16384 3 4 5 6 7 2 (by decide)

/-! ### C2 : delay exactness, arithmetic groundwork -/

theorem nat_mod_eq_of_int (M a b : Nat) (k : Int)
    (h : (a : Int) = (b : Int) + (M : Int) * k) : a % M = b % M := by
  have h2 : (a : Int) % (M : Int) = (b : Int) % (M : Int) := by
    rw [h, Int.add_mul_emod_self_left ..]
  have ha : ((a % M : Nat) : Int) = (a : Int) % (M : Int) := by push_cast; ring
  have hb : ((b % M : Nat) : Int) = (b : Int) % (M : Int) := by push_cast; ring
  exact_mod_cast ha.trans (h2.trans hb.symm)

theorem nat_div_add_mod_int (m k : Nat) :
    ((k : Int)) * ((m / k : Nat) : Int) + ((m % k : Nat) : Int) = (m : Int) := by
  exact_mod_cast congrArg (Nat.cast (R := Int)) (Nat.div_add_mod m k)

theorem mod_shift (M c x : Nat) (hc : c < M) :
    ((c + x) % M + M - c) % M = x % M := by
  have hle : c ≤ (c + x) % M + M := by omega
  apply nat_mod_eq_of_int M _ x (1 - (((c + x) / M : Nat) : Int))
  have hd := nat_div_add_mod_int (c + x) M
  push_cast [hle]
  push_cast at hd
  linarith

theorem succ_div_mod_of_eq {M m : Nat} (hM : 0 < M) (h : m % M = M - 1) :
    (m + 1) / M = m / M + 1 ∧ (m + 1) % M = 0 := by
  have hd := Nat.div_add_mod m M
  have hm1 : m + 1 = M * (m / M + 1) := by rw [Nat.mul_succ]; omega
  rw [hm1, Nat.mul_div_cancel_left _ hM, Nat.mul_mod_right]
  exact ⟨rfl, rfl⟩

theorem succ_div_mod_of_ne {M m : Nat} (hM : 0 < M) (h : m % M ≠ M - 1) :
    (m + 1) / M = m / M ∧ (m + 1) % M = m % M + 1 := by
  have hd := Nat.div_add_mod m M
  have hlt : m % M < M := Nat.mod_lt _ hM
  have hm1 : m + 1 = (m % M + 1) + M * (m / M) := by omega
  have hlt2 : m % M + 1 < M := by omega
  constructor
  · rw [hm1, Nat.add_mul_div_left _ _ hM, Nat.div_eq_of_lt hlt2, Nat.zero_add]
  · rw [hm1, Nat.add_mul_mod_self_left, Nat.mod_eq_of_lt hlt2]

theorem pred_div_of_mod_ne {M m : Nat} (hM : 0 < M) (h : m % M ≠ 0) :
    (m - 1) / M = m / M := by
  have hm0 : m ≠ 0 := fun h0 => h (h0 ▸ Nat.zero_mod M)
  obtain ⟨m', rfl⟩ : ∃ m', m = m' + 1 := ⟨m - 1, by omega⟩
  rcases eq_or_ne (m' % M) (M - 1) with hb | hb
  · exact absurd (succ_div_mod_of_eq hM hb).2 h
  · simp [(succ_div_mod_of_ne hM hb).1]

theorem pred_mod_of_mod_ne {M m : Nat} (hM : 0 < M) (h : m % M ≠ 0) :
    (m - 1) % M = m % M - 1 := by
  have hm0 : m ≠ 0 := fun h0 => h (h0 ▸ Nat.zero_mod M)
  obtain ⟨m', rfl⟩ : ∃ m', m = m' + 1 := ⟨m - 1, by omega⟩
  rcases eq_or_ne (m' % M) (M - 1) with hb | hb
  · exact absurd (succ_div_mod_of_eq hM hb).2 h
  · simp [(succ_div_mod_of_ne hM hb).2]

theorem sub_mod_self_of_le {M m : Nat} (h : m % M ≤ m) :
    (m - m % M) % M = 0 := by
  have hd := Nat.div_add_mod m M
  have : m - m % M = M * (m / M) := by omega
  rw [this, Nat.mul_mod_right]

theorem sbc2_eq {BS : Nat} (hdvd : BS ∣ 49152) :
    SPI_BLOCK_COUNT BS / 2 = 49152 / BS := by
  unfold SPI_BLOCK_COUNT MAX_DELAY_SAMPLES
  obtain ⟨c, hc⟩ := hdvd
  rcases Nat.eq_zero_or_pos BS with h0 | hpos
  · rw [h0]
  · rw [show (98304 : Nat) = 2 * 49152 by norm_num, hc,
      show 2 * (BS * c) = BS * (2 * c) by ring,
      Nat.mul_div_cancel_left _ hpos,
      Nat.mul_div_cancel_left c (by norm_num : 0 < 2),
      Nat.mul_div_cancel_left _ hpos]

theorem sbc2_mul {BS : Nat} (hdvd : BS ∣ 49152) :
    SPI_BLOCK_COUNT BS / 2 * BS = 49152 := by
  rw [sbc2_eq hdvd, Nat.div_mul_cancel hdvd]

theorem bst_lt_sbc2 {BS : Nat} (hdvd : BS ∣ 49152) :
    48000 / BS < SPI_BLOCK_COUNT BS / 2 := by
  rw [sbc2_eq hdvd]
  exact Nat.div_lt_div_of_lt_of_dvd hdvd (by norm_num)

theorem one_le_bst {BS : Nat} (hBS : 0 < BS) (hle : BS ≤ 48000) :
    1 ≤ 48000 / BS :=
  (Nat.one_le_div_iff hBS).2 hle

/-! ### C2 : bounds for the ideal sequences -/

theorem lpfSeq_bounds (alpha : Nat) (A : Int) (n : Nat) :
    -2147483648 ≤ lpfSeq alpha A n ∧ lpfSeq alpha A n < 2147483648 := by
  cases n with
  | zero => exact ⟨by norm_num [lpfSeq], by norm_num [lpfSeq]⟩
  | succ n => exact ⟨wrap32_lb _, wrap32_ub _⟩

theorem flushVal_bounds (BS alpha : Nat) (A : Int) (t j : Nat) :
    -2147483648 ≤ flushVal BS alpha A t j ∧ flushVal BS alpha A t j < 2147483648 := by
  unfold flushVal
  split
  · split
    · norm_num
    · exact lpfSeq_bounds ..
  · exact lpfSeq_bounds ..

theorem i32_u32_flushVal (BS alpha : Nat) (A : Int) (t j : Nat) :
    i32ofU32 (u32ofInt (flushVal BS alpha A t j)) = flushVal BS alpha A t j :=
  i32ofU32_u32ofInt (flushVal_bounds BS alpha A t j).1 (flushVal_bounds BS alpha A t j).2

/-! ### C2 : the delayed value read at each sample of the impulse run -/

theorem mod_lt_mod_of_div_eq {M a b : Nat} (h : a / M = b / M) (hab : a < b) :
    a % M < b % M := by
  have e1 := Nat.div_add_mod a M
  have e2 := Nat.div_add_mod b M
  rw [h] at e1
  generalize M * (b / M) = t at e1 e2
  omega

theorem firstWriteAt_lt {BS : Nat} (hBS : 0 < BS) (j : Nat) :
    firstWriteAt BS j < BS :=
  Nat.mod_lt _ hBS

theorem firstWriteAt_shift {BS : Nat} (hBS : 0 < BS) (n : Nat) :
    firstWriteAt BS ((48000 + n) % BS) = n % BS := by
  unfold firstWriteAt
  rw [show (48000 + n) % BS = (48000 % BS + n) % BS from (Nat.mod_add_mod 48000 BS n).symm]
  exact mod_shift BS (48000 % BS) n (Nat.mod_lt _ hBS)

theorem firstWriteAt_inj {BS : Nat} (hBS : 0 < BS) {j : Nat} (hj : j < BS) :
    (firstWriteAt BS j + 48000 % BS) % BS = j := by
  unfold firstWriteAt
  have h1 : 48000 % BS ≤ j + BS := by have := Nat.mod_lt 48000 hBS; omega
  rw [Nat.mod_add_mod, show j + BS - 48000 % BS + 48000 % BS = j + BS from by omega,
    Nat.add_mod_right, Nat.mod_eq_of_lt hj]

theorem rbuf_delayed {BS : Nat} (alpha : Nat) (A : Int) (hBS : 0 < BS)
    (hdvd : BS ∣ 49152) (hle : BS ≤ 48000) (n : Nat) (hn : n ≤ 48000) :
    rbufIdeal BS alpha A (n + 1) (n % BS) =
      if n = 48000 then lpfSeq alpha A 1 else 0 := by
  have hq_le : n / BS ≤ 48000 / BS := Nat.div_le_div_right hn
  have hq_lt : n / BS < SPI_BLOCK_COUNT BS / 2 := lt_of_le_of_lt hq_le (bst_lt_sbc2 hdvd)
  show spi_read_block BS (memIdeal BS alpha A (BS * (n / BS)))
      (n / BS % (SPI_BLOCK_COUNT BS / 2)) (n % BS) = _
  rw [show n / BS % (SPI_BLOCK_COUNT BS / 2) = n / BS from Nat.mod_eq_of_lt hq_lt]
  unfold spi_read_block
  rw [show n / BS * BS + n % BS = n from by
    rw [Nat.mul_comm]; exact Nat.div_add_mod n BS]
  unfold memIdeal
  have hflush : flushCount BS (BS * (n / BS)) = n / BS := by
    unfold flushCount
    rw [Nat.mul_add_div hBS, Nat.div_eq_of_lt (Nat.mod_lt 48000 hBS), Nat.add_zero]
  have hwdiv : n / BS = n / BS := rfl
  rcases Nat.lt_or_ge (n / BS) (48000 / BS) with hlt | hge
  · have hOrd : flushOrdinal BS (n / BS) =
        n / BS + SPI_BLOCK_COUNT BS / 2 - 48000 / BS := by
      unfold flushOrdinal
      apply Nat.mod_eq_of_lt
      omega
    have hne48 : n ≠ 48000 := by
      intro he; rw [he] at hlt; exact lt_irrefl _ hlt
    rw [if_neg, if_neg hne48]
    · exact i32ofU32_zero
    · rintro ⟨-, hcon⟩
      rw [hflush, hOrd] at hcon
      have := bst_lt_sbc2 hdvd
      omega
  · have hq : n / BS = 48000 / BS := le_antisymm hq_le hge
    have hOrd : flushOrdinal BS (n / BS) = 0 := by
      unfold flushOrdinal
      rw [hq, show 48000 / BS + SPI_BLOCK_COUNT BS / 2 - 48000 / BS =
        SPI_BLOCK_COUNT BS / 2 from by omega, Nat.mod_self]
    have hbound : n < SPI_BLOCK_COUNT BS / 2 * BS := by
      rw [sbc2_mul hdvd]; omega
    rw [if_pos ⟨hbound, by
      rw [hflush, hOrd]; exact lt_of_lt_of_le (one_le_bst hBS hle) (le_of_eq hq.symm)⟩]
    rw [hOrd, i32_u32_flushVal]
    unfold flushVal
    rw [if_pos rfl]
    rcases Nat.lt_or_ge n 48000 with hn48 | hn48
    · have hmlt : n % BS < 48000 % BS := mod_lt_mod_of_div_eq hq hn48
      rw [if_pos hmlt, if_neg (by omega)]
    · have he : n = 48000 := le_antisymm hn hn48
      rw [he, if_neg (lt_irrefl _), if_pos rfl, Nat.sub_self, Nat.zero_add]

/-! ### C2 : write-buffer evolution of the impulse run -/

theorem wbuf_step (BS alpha : Nat) (A : Int) (hBS : 0 < BS) (n : Nat) :
    (fun j => if j = (48000 + n) % BS then lpfSeq alpha A (n + 1)
      else wbufIdeal BS alpha A n j) = wbufIdeal BS alpha A (n + 1) := by
  funext j
  by_cases hj : j = (48000 + n) % BS
  · subst hj
    have hp_lt : (48000 + n) % BS < BS := Nat.mod_lt _ hBS
    have hfw : firstWriteAt BS ((48000 + n) % BS) = n % BS := firstWriteAt_shift hBS n
    rw [if_pos rfl]
    unfold wbufIdeal
    rw [if_pos ⟨hp_lt, by rw [hfw]; exact Nat.lt_succ_of_le (Nat.mod_le n BS)⟩]
    unfold lastWriteAt
    rw [hfw, Nat.add_sub_cancel, sub_mod_self_of_le (Nat.mod_le n BS), Nat.sub_zero]
  · rw [if_neg hj]
    unfold wbufIdeal
    by_cases hjBS : j < BS
    · have hfj : firstWriteAt BS j ≠ n % BS := by
        intro he
        apply hj
        have hrec := firstWriteAt_inj hBS hjBS
        rw [he, Nat.mod_add_mod, Nat.add_comm n (48000 % BS), Nat.mod_add_mod,
          Nat.add_comm (48000 : Nat) n] at hrec
        rw [← hrec, Nat.add_comm n 48000]
      by_cases hlt : firstWriteAt BS j < n
      · rw [if_pos ⟨hjBS, hlt⟩, if_pos ⟨hjBS, Nat.lt_succ_of_lt hlt⟩]
        have hfBS : firstWriteAt BS j < BS := firstWriteAt_lt hBS j
        have hc : (n - firstWriteAt BS j) % BS ≠ 0 := by
          intro h0
          obtain ⟨c, hcc⟩ := Nat.dvd_of_mod_eq_zero h0
          have hn : n = firstWriteAt BS j + BS * c := by omega
          apply hfj
          rw [hn, Nat.add_mul_mod_self_left, Nat.mod_eq_of_lt hfBS]
        have hpred : (n - 1 - firstWriteAt BS j) % BS =
            (n - firstWriteAt BS j) % BS - 1 := by
          rw [show n - 1 - firstWriteAt BS j = n - firstWriteAt BS j - 1 from by omega]
          exact pred_mod_of_mod_ne hBS hc
        unfold lastWriteAt
        have hb : (n - firstWriteAt BS j) % BS ≤ n - firstWriteAt BS j :=
          Nat.mod_le _ _
        have hbb : (n - firstWriteAt BS j) % BS < BS := Nat.mod_lt _ hBS
        rw [Nat.add_sub_cancel]
        congr 1
        omega
      · rw [if_neg (fun hcon => hlt hcon.2), if_neg ?_]
        rintro ⟨-, hcon⟩
        have hfn : firstWriteAt BS j = n := by omega
        apply hfj
        rw [hfn, Nat.mod_eq_of_lt (hfn ▸ firstWriteAt_lt hBS j)]
    · rw [if_neg (fun hcon => hjBS hcon.1), if_neg (fun hcon => hjBS hcon.1)]

/-! ### C2 : external-memory evolution of the impulse run -/

theorem add48_mod (BS n : Nat) : (n + 48000 % BS) % BS = (48000 + n) % BS := by
  rw [Nat.add_comm n (48000 % BS)]
  exact Nat.mod_add_mod 48000 BS n

theorem mem_noflush (BS alpha : Nat) (A : Int) (hBS : 0 < BS) (n : Nat)
    (hb : (48000 + n) % BS ≠ BS - 1) :
    memIdeal BS alpha A (n + 1) = memIdeal BS alpha A n := by
  have hcnt : flushCount BS (n + 1) = flushCount BS n := by
    unfold flushCount
    rw [show n + 1 + 48000 % BS = n + 48000 % BS + 1 from by omega]
    exact (succ_div_mod_of_ne hBS (fun hcon => hb ((add48_mod BS n).symm.trans hcon))).1
  unfold memIdeal
  rw [hcnt]

theorem wbuf_full (BS alpha : Nat) (A : Int) (hBS : 0 < BS) (n : Nat)
    (hb : (48000 + n) % BS = BS - 1) {j : Nat} (hj : j < BS) :
    wbufIdeal BS alpha A (n + 1) j = flushVal BS alpha A (flushCount BS n) j := by
  have hk0 : 48000 % BS < BS := Nat.mod_lt _ hBS
  have hmc : (n + 48000 % BS) % BS = BS - 1 := (add48_mod BS n).trans hb
  have he := Nat.div_add_mod (n + 48000 % BS) BS
  rw [hmc] at he
  have hcount : (n + 48000 % BS) / BS = flushCount BS n := rfl
  rw [hcount] at he
  unfold wbufIdeal flushVal lastWriteAt
  rcases Nat.eq_zero_or_pos (flushCount BS n) with ht0 | htpos
  · rw [ht0] at he ⊢
    rw [if_pos rfl]
    by_cases hjk : j < 48000 % BS
    · have hf : firstWriteAt BS j = j + BS - 48000 % BS := by
        unfold firstWriteAt
        exact Nat.mod_eq_of_lt (by omega)
      rw [if_pos hjk, if_neg ?_]
      rintro ⟨-, hcon⟩
      rw [hf] at hcon
      omega
    · have hf : firstWriteAt BS j = j - 48000 % BS := by
        unfold firstWriteAt
        rw [show j + BS - 48000 % BS = j - 48000 % BS + BS from by omega,
          Nat.add_mod_right]
        exact Nat.mod_eq_of_lt (by omega)
      rw [if_neg hjk, if_pos ⟨hj, by rw [hf]; omega⟩, hf, Nat.add_sub_cancel]
      rw [show n - (j - 48000 % BS) = BS - 1 - j from by omega,
        Nat.mod_eq_of_lt (by omega)]
      congr 1
      omega
  · have hBSle : BS ≤ BS * flushCount BS n :=
      Nat.le_mul_of_pos_right BS htpos
    rw [if_neg (Nat.pos_iff_ne_zero.1 htpos)]
    by_cases hjk : j < 48000 % BS
    · have hf : firstWriteAt BS j = j + BS - 48000 % BS := by
        unfold firstWriteAt
        exact Nat.mod_eq_of_lt (by omega)
      rw [if_pos ⟨hj, by rw [hf]; omega⟩, hf, Nat.add_sub_cancel]
      have hsub : n - (j + BS - 48000 % BS) =
          BS * (flushCount BS n - 1) + (BS - 1 - j) := by
        rw [Nat.mul_sub_left_distrib, Nat.mul_one]
        omega
      rw [hsub, Nat.mul_add_mod, Nat.mod_eq_of_lt (by omega)]
      congr 1
      omega
    · have hf : firstWriteAt BS j = j - 48000 % BS := by
        unfold firstWriteAt
        rw [show j + BS - 48000 % BS = j - 48000 % BS + BS from by omega,
          Nat.add_mod_right]
        exact Nat.mod_eq_of_lt (by omega)
      rw [if_pos ⟨hj, by rw [hf]; omega⟩, hf, Nat.add_sub_cancel]
      have hsub : n - (j - 48000 % BS) =
          BS * flushCount BS n + (BS - 1 - j) := by omega
      rw [hsub, Nat.mul_add_mod, Nat.mod_eq_of_lt (by omega)]
      congr 1
      omega

theorem mem_flush (BS alpha : Nat) (A : Int) (hBS : 0 < BS) (hdvd : BS ∣ 49152)
    (hle : BS ≤ 48000) (n : Nat) (hn : n < 48000)
    (hb : (48000 + n) % BS = BS - 1) :
    spi_write_block BS (memIdeal BS alpha A n)
        ((48000 + n) / BS % (SPI_BLOCK_COUNT BS / 2))
        (wbufIdeal BS alpha A (n + 1)) = memIdeal BS alpha A (n + 1) := by
  have hk0 : 48000 % BS < BS := Nat.mod_lt _ hBS
  have hmc : (n + 48000 % BS) % BS = BS - 1 := (add48_mod BS n).trans hb
  have he := Nat.div_add_mod (n + 48000 % BS) BS
  rw [hmc, show (n + 48000 % BS) / BS = flushCount BS n from rfl] at he
  have h48 := Nat.div_add_mod 48000 BS
  have hcnt : flushCount BS (n + 1) = flushCount BS n + 1 := by
    unfold flushCount
    rw [show n + 1 + 48000 % BS = n + 48000 % BS + 1 from by omega]
    exact (succ_div_mod_of_eq hBS hmc).1
  have hdivq : (48000 + n) / BS = 48000 / BS + flushCount BS n := by
    rw [show 48000 + n = BS * (48000 / BS) + (n + 48000 % BS) from by omega,
      Nat.mul_add_div hBS, show (n + 48000 % BS) / BS = flushCount BS n from rfl]
  have hbst_lt : 48000 / BS < SPI_BLOCK_COUNT BS / 2 := bst_lt_sbc2 hdvd
  have hS2pos : 0 < SPI_BLOCK_COUNT BS / 2 :=
    lt_of_le_of_lt (Nat.zero_le _) hbst_lt
  have htlt : flushCount BS n < SPI_BLOCK_COUNT BS / 2 := by
    have h2 : BS * (SPI_BLOCK_COUNT BS / 2) = 49152 := by
      rw [Nat.mul_comm]; exact sbc2_mul hdvd
    have h1 : BS * flushCount BS n < BS * (SPI_BLOCK_COUNT BS / 2) := by omega
    exact Nat.lt_of_mul_lt_mul_left h1
  have hOrdF : flushOrdinal BS
      ((48000 / BS + flushCount BS n) % (SPI_BLOCK_COUNT BS / 2)) = flushCount BS n := by
    unfold flushOrdinal
    rw [mod_shift _ _ _ hbst_lt]
    exact Nat.mod_eq_of_lt htlt
  funext w
  unfold spi_write_block
  rw [hdivq]
  have hblkF_lt : (48000 / BS + flushCount BS n) % (SPI_BLOCK_COUNT BS / 2) <
      SPI_BLOCK_COUNT BS / 2 := Nat.mod_lt _ hS2pos
  by_cases hw : (48000 / BS + flushCount BS n) % (SPI_BLOCK_COUNT BS / 2) * BS ≤ w ∧
      w < (48000 / BS + flushCount BS n) % (SPI_BLOCK_COUNT BS / 2) * BS + BS
  · rw [if_pos hw]
    obtain ⟨hw1, hw2⟩ := hw
    have hj_lt : w - (48000 / BS + flushCount BS n) % (SPI_BLOCK_COUNT BS / 2) * BS < BS := by
      omega
    have hcomm : BS * ((48000 / BS + flushCount BS n) % (SPI_BLOCK_COUNT BS / 2)) =
        (48000 / BS + flushCount BS n) % (SPI_BLOCK_COUNT BS / 2) * BS :=
      Nat.mul_comm ..
    have hwdec : w = BS * ((48000 / BS + flushCount BS n) % (SPI_BLOCK_COUNT BS / 2)) +
        (w - (48000 / BS + flushCount BS n) % (SPI_BLOCK_COUNT BS / 2) * BS) := by
      omega
    have hwdiv : w / BS = (48000 / BS + flushCount BS n) % (SPI_BLOCK_COUNT BS / 2) := by
      conv_lhs => rw [hwdec]
      rw [Nat.mul_add_div hBS, Nat.div_eq_of_lt hj_lt, Nat.add_zero]
    have hwmod : w % BS =
        w - (48000 / BS + flushCount BS n) % (SPI_BLOCK_COUNT BS / 2) * BS := by
      conv_lhs => rw [hwdec]
      rw [Nat.mul_add_mod, Nat.mod_eq_of_lt hj_lt]
    have hwlt : w < SPI_BLOCK_COUNT BS / 2 * BS := by
      have h3 : ((48000 / BS + flushCount BS n) % (SPI_BLOCK_COUNT BS / 2) + 1) * BS ≤
          SPI_BLOCK_COUNT BS / 2 * BS := Nat.mul_le_mul_right _ hblkF_lt
      rw [Nat.succ_mul] at h3
      omega
    show u32ofInt _ = memIdeal BS alpha A (n + 1) w
    unfold memIdeal
    rw [hwdiv, hOrdF, hcnt, if_pos ⟨hwlt, Nat.lt_succ_self _⟩, hwmod]
    rw [wbuf_full BS alpha A hBS n hb hj_lt]
  · rw [if_neg hw]
    show memIdeal BS alpha A n w = memIdeal BS alpha A (n + 1) w
    unfold memIdeal
    rw [hcnt]
    by_cases hwS : w < SPI_BLOCK_COUNT BS / 2 * BS
    · have hwdivlt : w / BS < SPI_BLOCK_COUNT BS / 2 :=
        Nat.div_lt_of_lt_mul (by rw [Nat.mul_comm] at hwS; exact hwS)
      have hOrdNe : flushOrdinal BS (w / BS) ≠ flushCount BS n := by
        intro hOrdEq
        have hshift : w / BS + SPI_BLOCK_COUNT BS / 2 - 48000 / BS + 48000 / BS =
            w / BS + SPI_BLOCK_COUNT BS / 2 := by
          generalize w / BS = q
          generalize hd : (48000 : Nat) / BS = d at hbst_lt ⊢
          omega
        have hrec : (flushOrdinal BS (w / BS) + 48000 / BS) %
            (SPI_BLOCK_COUNT BS / 2) = w / BS := by
          unfold flushOrdinal
          rw [Nat.mod_add_mod, hshift, Nat.add_mod_right, Nat.mod_eq_of_lt hwdivlt]
        rw [hOrdEq, Nat.add_comm (flushCount BS n) (48000 / BS)] at hrec
        apply hw
        rw [hrec]
        have hdm := Nat.div_add_mod w BS
        have hmlt : w % BS < BS := Nat.mod_lt _ hBS
        have hcomm2 : BS * (w / BS) = w / BS * BS := Nat.mul_comm ..
        exact ⟨by omega, by omega⟩
      rcases Nat.lt_or_ge (flushOrdinal BS (w / BS)) (flushCount BS n) with hlt | hge
      · rw [if_pos ⟨hwS, hlt⟩, if_pos ⟨hwS, by omega⟩]
      · rw [if_neg (fun hcon => by omega), if_neg (fun hcon => by
          exact absurd (by omega : flushOrdinal BS (w / BS) = flushCount BS n) hOrdNe)]
    · rw [if_neg (fun hcon => hwS hcon.1), if_neg (fun hcon => hwS hcon.1)]

/-! ### C2 : read-cache evolution and the cleared base state -/

theorem spi_read_block_zero (BS k : Nat) :
    spi_read_block BS (fun _ => 0) k = fun _ => (0 : Int) := by
  funext i
  exact i32ofU32_zero

theorem rbuf_step (BS alpha : Nat) (A : Int) (hBS : 0 < BS) (n : Nat) :
    (if n % BS = 0 then
        spi_read_block BS (memIdeal BS alpha A n) (n / BS % (SPI_BLOCK_COUNT BS / 2))
      else rbufIdeal BS alpha A n) = rbufIdeal BS alpha A (n + 1) := by
  by_cases h : n % BS = 0
  · rw [if_pos h]
    show spi_read_block BS (memIdeal BS alpha A n) (n / BS % (SPI_BLOCK_COUNT BS / 2)) =
      spi_read_block BS (memIdeal BS alpha A (BS * (n / BS)))
        (n / BS % (SPI_BLOCK_COUNT BS / 2))
    rw [show BS * (n / BS) = n from by
      have := Nat.div_add_mod n BS
      omega]
  · rw [if_neg h]
    have hn0 : n ≠ 0 := by
      intro h0
      exact h (by rw [h0]; exact Nat.zero_mod BS)
    obtain ⟨m, rfl⟩ : ∃ m, n = m + 1 := ⟨n - 1, by omega⟩
    show spi_read_block BS (memIdeal BS alpha A (BS * (m / BS)))
        (m / BS % (SPI_BLOCK_COUNT BS / 2)) =
      spi_read_block BS (memIdeal BS alpha A (BS * ((m + 1) / BS)))
        ((m + 1) / BS % (SPI_BLOCK_COUNT BS / 2))
    have h2 := pred_div_of_mod_ne hBS h
    rw [Nat.add_sub_cancel] at h2
    rw [← h2]

theorem rbufr_step (BS n : Nat) :
    (if n % BS = 0 then
        spi_read_block BS (fun _ => 0) (n / BS % (SPI_BLOCK_COUNT BS / 2))
      else fun _ => 0) = fun _ => (0 : Int) := by
  split
  · exact spi_read_block_zero BS _
  · rfl

theorem xin_bounds (A : Int) (h1 : -2147483648 ≤ A) (h2 : A < 2147483648) (n : Nat) :
    -2147483648 ≤ xin A n ∧ xin A n < 2147483648 := by
  unfold xin
  split
  · exact ⟨h1, h2⟩
  · norm_num

theorem memIdeal_zero (BS alpha : Nat) (A : Int) (hBS : 0 < BS) :
    memIdeal BS alpha A 0 = fun _ => 0 := by
  funext w
  unfold memIdeal
  rw [if_neg]
  rintro ⟨-, hcon⟩
  unfold flushCount at hcon
  rw [Nat.zero_add, Nat.div_eq_of_lt (Nat.mod_lt _ hBS)] at hcon
  exact absurd hcon (Nat.not_lt_zero _)

theorem wbufIdeal_zero (BS alpha : Nat) (A : Int) :
    wbufIdeal BS alpha A 0 = fun _ => 0 := by
  funext j
  unfold wbufIdeal
  rw [if_neg]
  rintro ⟨-, hcon⟩
  exact absurd hcon (Nat.not_lt_zero _)

theorem cleared_eq_ideal (BS fb mix dry vol alpha : Nat) (A : Int)
    (hBS : 0 < BS) :
    delayClearedState BS fb mix dry vol alpha = idealState BS fb mix dry vol alpha A 0 := by
  have h48 : (48000 : Nat) % MAX_DELAY_SAMPLES = 48000 := by decide
  refine DelayState.ext rfl rfl rfl rfl rfl rfl rfl rfl rfl ?_ rfl ?_ ?_ ?_ ?_ ?_ ?_ rfl
    ?_ ?_ ?_ ?_ ?_ ?_ ?_
  · show (48000 : Nat) % MAX_DELAY_SAMPLES = 48000 + 0
    rw [h48]
  · show (fun _ => (0 : Int)) = wbufIdeal BS alpha A 0
    rw [wbufIdeal_zero]
  · show spi_read_block BS (zero_blocks BS (fun _ => 0) (SPI_BLOCK_COUNT BS / 2))
        (0 / BS % (SPI_BLOCK_COUNT BS / 2)) = rbufIdeal BS alpha A 0
    rw [zero_blocks_of_zero BS (SPI_BLOCK_COUNT BS / 2), spi_read_block_zero]
    rfl
  · show (48000 : Nat) % MAX_DELAY_SAMPLES % BS = (48000 + 0) % BS
    rw [h48]
  · show (48000 : Nat) % MAX_DELAY_SAMPLES / BS % (SPI_BLOCK_COUNT BS / 2) =
      (48000 + 0) / BS % (SPI_BLOCK_COUNT BS / 2)
    rw [h48]
  · show (0 : Nat) / BS = 0
    exact Nat.zero_div BS
  · show (48000 : Nat) % MAX_DELAY_SAMPLES = 48000 + 0
    rw [h48]
  · show (fun _ => (0 : Int)) = (fun _ => (0 : Int))
    rfl
  · show spi_read_block BS (zero_blocks BS (fun _ => 0) (SPI_BLOCK_COUNT BS / 2))
        (0 / BS % (SPI_BLOCK_COUNT BS / 2)) = (fun _ => (0 : Int))
    rw [zero_blocks_of_zero BS (SPI_BLOCK_COUNT BS / 2), spi_read_block_zero]
  · show (48000 : Nat) % MAX_DELAY_SAMPLES % BS = (48000 + 0) % BS
    rw [h48]
  · show (48000 : Nat) % MAX_DELAY_SAMPLES / BS % (SPI_BLOCK_COUNT BS / 2) =
      (48000 + 0) / BS % (SPI_BLOCK_COUNT BS / 2)
    rw [h48]
  · show (0 : Nat) / BS = 0
    exact Nat.zero_div BS
  · show zero_blocks BS (fun _ => 0) (SPI_BLOCK_COUNT BS / 2) = memIdeal BS alpha A 0
    rw [zero_blocks_of_zero BS (SPI_BLOCK_COUNT BS / 2), memIdeal_zero BS alpha A hBS]
  · show zero_blocks BS (fun _ => 0) (SPI_BLOCK_COUNT BS / 2) = (fun _ => (0 : Nat))
    rw [zero_blocks_of_zero BS (SPI_BLOCK_COUNT BS / 2)]

/-! ### C2 : one ideal step of the impulse run -/

theorem store_ideal (BS fb mix dry vol alpha : Nat) (A : Int)
    (hBS : 0 < BS) (hdvd : BS ∣ 49152) (hle : BS ≤ 48000) (n : Nat) (hn : n < 48000) :
    delay_store_mix_update BS (idealState BS fb mix dry vol alpha A n)
      (rbufIdeal BS alpha A (n + 1)) (fun _ => 0) 0 0
      (lpfSeq alpha A (n + 1)) 0 (xin A n) 0 =
    ((outIdeal dry mix vol alpha A n, 0),
      idealState BS fb mix dry vol alpha A (n + 1)) := by
  have hmlt : (48000 + n) % BS < BS := Nat.mod_lt _ hBS
  refine Prod.ext (Prod.ext ?_ ?_) ?_
  · show multiply_q16 (wrap32 (multiply_q16 (xin A n) dry + multiply_q16 0 mix)) vol =
      outIdeal dry mix vol alpha A n
    unfold outIdeal
    rw [if_neg (by omega : ¬ n = 48000)]
  · show multiply_q16 (wrap32 (multiply_q16 0 dry + multiply_q16 0 mix)) vol = 0
    rw [multiply_q16_zero, multiply_q16_zero, show ((0 : Int) + 0) = 0 from by norm_num,
      wrap32_zero, multiply_q16_zero]
  refine DelayState.ext rfl rfl rfl rfl rfl rfl rfl rfl rfl ?_ ?_ ?_ rfl ?_ ?_ rfl
    ?_ ?_ ?_ rfl ?_ ?_ rfl ?_ ?_
  · show (48000 + n + 1) % MAX_DELAY_SAMPLES = 48000 + (n + 1)
    unfold MAX_DELAY_SAMPLES
    omega
  · show readIndexFor ((48000 + n + 1) % MAX_DELAY_SAMPLES) 48000 = n + 1
    unfold readIndexFor u32sub MAX_DELAY_SAMPLES
    omega
  · show (fun j => if j = (48000 + n) % BS then lpfSeq alpha A (n + 1)
        else wbufIdeal BS alpha A n j) = wbufIdeal BS alpha A (n + 1)
    exact wbuf_step BS alpha A hBS n
  · show (if BS ≤ (48000 + n) % BS + 1 then 0 else (48000 + n) % BS + 1) =
      (48000 + n + 1) % BS
    by_cases hb : (48000 + n) % BS = BS - 1
    · rw [if_pos (by omega), (succ_div_mod_of_eq hBS hb).2]
    · rw [if_neg (by omega), (succ_div_mod_of_ne hBS hb).2]
  · show (if BS ≤ (48000 + n) % BS + 1 then
        ((48000 + n) / BS % (SPI_BLOCK_COUNT BS / 2) + 1) % (SPI_BLOCK_COUNT BS / 2)
      else (48000 + n) / BS % (SPI_BLOCK_COUNT BS / 2)) =
      (48000 + n + 1) / BS % (SPI_BLOCK_COUNT BS / 2)
    by_cases hb : (48000 + n) % BS = BS - 1
    · rw [if_pos (by omega), (succ_div_mod_of_eq hBS hb).1, Nat.mod_add_mod]
    · rw [if_neg (by omega), (succ_div_mod_of_ne hBS hb).1]
  · show (48000 + n + 1) % MAX_DELAY_SAMPLES = 48000 + (n + 1)
    unfold MAX_DELAY_SAMPLES
    omega
  · show readIndexFor ((48000 + n + 1) % MAX_DELAY_SAMPLES) 48000 = n + 1
    unfold readIndexFor u32sub MAX_DELAY_SAMPLES
    omega
  · show (fun j => if j = (48000 + n) % BS then (0 : Int) else 0) = fun _ => (0 : Int)
    funext j
    exact ite_self 0
  · show (if BS ≤ (48000 + n) % BS + 1 then 0 else (48000 + n) % BS + 1) =
      (48000 + n + 1) % BS
    by_cases hb : (48000 + n) % BS = BS - 1
    · rw [if_pos (by omega), (succ_div_mod_of_eq hBS hb).2]
    · rw [if_neg (by omega), (succ_div_mod_of_ne hBS hb).2]
  · show (if BS ≤ (48000 + n) % BS + 1 then
        ((48000 + n) / BS % (SPI_BLOCK_COUNT BS / 2) + 1) % (SPI_BLOCK_COUNT BS / 2)
      else (48000 + n) / BS % (SPI_BLOCK_COUNT BS / 2)) =
      (48000 + n + 1) / BS % (SPI_BLOCK_COUNT BS / 2)
    by_cases hb : (48000 + n) % BS = BS - 1
    · rw [if_pos (by omega), (succ_div_mod_of_eq hBS hb).1, Nat.mod_add_mod]
    · rw [if_neg (by omega), (succ_div_mod_of_ne hBS hb).1]
  · show (if BS ≤ (48000 + n) % BS + 1 then
        spi_write_block BS (memIdeal BS alpha A n)
          ((48000 + n) / BS % (SPI_BLOCK_COUNT BS / 2))
          (fun j => if j = (48000 + n) % BS then lpfSeq alpha A (n + 1)
            else wbufIdeal BS alpha A n j)
      else memIdeal BS alpha A n) = memIdeal BS alpha A (n + 1)
    by_cases hb : (48000 + n) % BS = BS - 1
    · rw [if_pos (by omega), wbuf_step BS alpha A hBS n,
        mem_flush BS alpha A hBS hdvd hle n hn hb]
    · rw [if_neg (by omega)]
      exact (mem_noflush BS alpha A hBS n hb).symm
  · show (if BS ≤ (48000 + n) % BS + 1 then
        spi_write_block BS (fun _ => 0) ((48000 + n) / BS % (SPI_BLOCK_COUNT BS / 2))
          (fun j => if j = (48000 + n) % BS then (0 : Int) else 0)
      else fun _ => 0) = fun _ => (0 : Nat)
    split
    · funext w
      simp only [spi_write_block, ite_self, u32ofInt_zero]
    · rfl

theorem ideal_step (BS fb mix dry vol alpha : Nat) (A : Int)
    (hBS : 0 < BS) (hdvd : BS ∣ 49152) (hle : BS ≤ 48000)
    (hA1 : -2147483648 ≤ A) (hA2 : A < 2147483648)
    (n : Nat) (hn : n < 48000) :
    process_audio_delay_sample BS DelayMode.parallel
      (idealState BS fb mix dry vol alpha A n) (xin A n) 0 =
    ((outIdeal dry mix vol alpha A n, 0),
      idealState BS fb mix dry vol alpha A (n + 1)) := by
  show delay_store_mix_update BS (idealState BS fb mix dry vol alpha A n)
      (if n % BS = 0 then
          spi_read_block BS (memIdeal BS alpha A n) (n / BS % (SPI_BLOCK_COUNT BS / 2))
        else rbufIdeal BS alpha A n)
      (if n % BS = 0 then
          spi_read_block BS (fun _ => 0) (n / BS % (SPI_BLOCK_COUNT BS / 2))
        else fun _ => 0)
      ((if n % BS = 0 then
          spi_read_block BS (memIdeal BS alpha A n) (n / BS % (SPI_BLOCK_COUNT BS / 2))
        else rbufIdeal BS alpha A n) (n % BS))
      ((if n % BS = 0 then
          spi_read_block BS (fun _ => 0) (n / BS % (SPI_BLOCK_COUNT BS / 2))
        else fun _ => 0) (n % BS))
      (lpfStep alpha (lpfSeq alpha A n)
        (wrap32 (xin A n + multiply_q16
          ((if n % BS = 0 then
              spi_read_block BS (memIdeal BS alpha A n) (n / BS % (SPI_BLOCK_COUNT BS / 2))
            else rbufIdeal BS alpha A n) (n % BS)) fb)))
      (lpfStep alpha 0
        (wrap32 (0 + multiply_q16
          ((if n % BS = 0 then
              spi_read_block BS (fun _ => 0) (n / BS % (SPI_BLOCK_COUNT BS / 2))
            else fun _ => 0) (n % BS)) fb)))
      (xin A n) 0 =
    ((outIdeal dry mix vol alpha A n, 0), idealState BS fb mix dry vol alpha A (n + 1))
  rw [rbuf_step BS alpha A hBS n, rbufr_step BS n,
    rbuf_delayed alpha A hBS hdvd hle n (by omega), if_neg (by omega : ¬ n = 48000)]
  simp only [multiply_q16_zero, add_zero, zero_add, wrap32_zero, lpfStep_zero]
  rw [wrap32_eq_self (xin_bounds A hA1 hA2 n).1 (xin_bounds A hA1 hA2 n).2]
  exact store_ideal BS fb mix dry vol alpha A hBS hdvd hle n hn

theorem ideal_step_final (BS fb mix dry vol alpha : Nat) (A : Int)
    (hBS : 0 < BS) (hdvd : BS ∣ 49152) (hle : BS ≤ 48000) :
    (process_audio_delay_sample BS DelayMode.parallel
        (idealState BS fb mix dry vol alpha A 48000) (xin A 48000) 0).1 =
      (outIdeal dry mix vol alpha A 48000, 0) := by
  have hdel : (if (48000 : Nat) % BS = 0 then
      spi_read_block BS (memIdeal BS alpha A 48000)
        (48000 / BS % (SPI_BLOCK_COUNT BS / 2))
    else rbufIdeal BS alpha A 48000) (48000 % BS) = lpfSeq alpha A 1 := by
    rw [rbuf_step BS alpha A hBS 48000,
      rbuf_delayed alpha A hBS hdvd hle 48000 (le_refl _), if_pos rfl]
  refine Prod.ext ?_ ?_
  · show multiply_q16 (wrap32 (multiply_q16 (xin A 48000) dry +
        multiply_q16 ((if (48000 : Nat) % BS = 0 then
            spi_read_block BS (memIdeal BS alpha A 48000)
              (48000 / BS % (SPI_BLOCK_COUNT BS / 2))
          else rbufIdeal BS alpha A 48000) (48000 % BS)) mix)) vol =
      outIdeal dry mix vol alpha A 48000
    rw [hdel]
    unfold outIdeal
    rw [if_pos rfl]
  · show multiply_q16 (wrap32 (multiply_q16 0 dry +
        multiply_q16 ((if (48000 : Nat) % BS = 0 then
            spi_read_block BS (fun _ => 0) (48000 / BS % (SPI_BLOCK_COUNT BS / 2))
          else fun _ => 0) (48000 % BS)) mix)) vol = 0
    rw [rbufr_step BS 48000]
    simp only [multiply_q16_zero, zero_add, wrap32_zero]

/-! ### C2 : the whole impulse run -/

theorem dpb_ideal (BS fb mix dry vol alpha : Nat) (A : Int)
    (hBS : 0 < BS) (hdvd : BS ∣ 49152) (hle : BS ≤ 48000)
    (hA1 : -2147483648 ≤ A) (hA2 : A < 2147483648) :
    ∀ (m n : Nat), n + m ≤ 48001 →
    (delay_process_block BS DelayMode.parallel
        (idealState BS fb mix dry vol alpha A n) (streamFrames A n m)).1 =
      outFrames dry mix vol alpha A n m ∧
    (n + m ≤ 48000 →
      (delay_process_block BS DelayMode.parallel
          (idealState BS fb mix dry vol alpha A n) (streamFrames A n m)).2 =
        idealState BS fb mix dry vol alpha A (n + m)) := by
  intro m
  induction m with
  | zero =>
      intro n hn
      exact ⟨rfl, fun _ => rfl⟩
  | succ m ih =>
      intro n hn
      rcases Nat.lt_or_ge n 48000 with hlt | hge
      · have h1 := ideal_step BS fb mix dry vol alpha A hBS hdvd hle hA1 hA2 n hlt
        have h2 := ih (n + 1) (by omega)
        constructor
        · show (process_audio_delay_sample BS DelayMode.parallel
              (idealState BS fb mix dry vol alpha A n) (xin A n) 0).1 ::
            (delay_process_block BS DelayMode.parallel
              (process_audio_delay_sample BS DelayMode.parallel
                (idealState BS fb mix dry vol alpha A n) (xin A n) 0).2
              (streamFrames A (n + 1) m)).1 =
            outFrames dry mix vol alpha A n (m + 1)
          rw [h1]
          show (outIdeal dry mix vol alpha A n, (0 : Int)) ::
            (delay_process_block BS DelayMode.parallel
              (idealState BS fb mix dry vol alpha A (n + 1))
              (streamFrames A (n + 1) m)).1 = _
          rw [h2.1]
          rfl
        · intro h48
          show (delay_process_block BS DelayMode.parallel
              (process_audio_delay_sample BS DelayMode.parallel
                (idealState BS fb mix dry vol alpha A n) (xin A n) 0).2
              (streamFrames A (n + 1) m)).2 =
            idealState BS fb mix dry vol alpha A (n + (m + 1))
          rw [h1]
          show (delay_process_block BS DelayMode.parallel
              (idealState BS fb mix dry vol alpha A (n + 1))
              (streamFrames A (n + 1) m)).2 = _
          rw [h2.2 (by omega), show n + 1 + m = n + (m + 1) from by omega]
      · have hn48 : n = 48000 := by omega
        have hm0 : m = 0 := by omega
        subst hn48
        subst hm0
        constructor
        · show (process_audio_delay_sample BS DelayMode.parallel
              (idealState BS fb mix dry vol alpha A 48000) (xin A 48000) 0).1 ::
            (delay_process_block BS DelayMode.parallel
              (process_audio_delay_sample BS DelayMode.parallel
                (idealState BS fb mix dry vol alpha A 48000) (xin A 48000) 0).2
              (streamFrames A (48000 + 1) 0)).1 =
            outFrames dry mix vol alpha A 48000 (0 + 1)
          rw [ideal_step_final BS fb mix dry vol alpha A hBS hdvd hle]
          rfl
        · intro hcon
          omega

theorem streamFrames_silence (A : Int) :
    ∀ (m n : Nat), 1 ≤ n →
    streamFrames A n m = List.replicate m ((0 : Int), (0 : Int)) := by
  intro m
  induction m with
  | zero => intro n hn; rfl
  | succ m ih =>
      intro n hn
      show (xin A n, (0 : Int)) :: streamFrames A (n + 1) m = _
      rw [List.replicate_succ, ih (n + 1) (by omega),
        show xin A n = 0 from by unfold xin; rw [if_neg (by omega)]]

theorem impulse_eq_stream (A : Int) :
    impulseFrames A = streamFrames A 0 48001 := by
  show (A, (0 : Int)) :: List.replicate 48000 ((0 : Int), (0 : Int)) =
    (xin A 0, (0 : Int)) :: streamFrames A 1 48000
  rw [streamFrames_silence A 48000 1 (by omega)]
  rfl

theorem impulse_run (BS fb mix dry vol alpha : Nat) (A : Int)
    (hBS : 0 < BS) (hdvd : BS ∣ 49152) (hle : BS ≤ 48000)
    (hA1 : -2147483648 ≤ A) (hA2 : A < 2147483648) :
    (delay_process_block BS DelayMode.parallel
        (delayClearedState BS fb mix dry vol alpha) (impulseFrames A)).1 =
      outFrames dry mix vol alpha A 0 48001 := by
  rw [impulse_eq_stream A, cleared_eq_ideal BS fb mix dry vol alpha A hBS]
  exact (dpb_ideal BS fb mix dry vol alpha A hBS hdvd hle hA1 hA2 48001 0 (by omega)).1

/-! ### C2 : chunked delivery and the output frames -/

theorem dpb_append (BS : Nat) (mode : DelayMode) :
    ∀ (l1 l2 : List (Int × Int)) (s : DelayState),
    delay_process_block BS mode s (l1 ++ l2) =
      ((delay_process_block BS mode s l1).1 ++
         (delay_process_block BS mode (delay_process_block BS mode s l1).2 l2).1,
       (delay_process_block BS mode (delay_process_block BS mode s l1).2 l2).2) := by
  intro l1
  induction l1 with
  | nil =>
      intro l2 s
      show delay_process_block BS mode s l2 =
        ([] ++ (delay_process_block BS mode s l2).1, (delay_process_block BS mode s l2).2)
      rw [List.nil_append]
  | cons f rest ih =>
      intro l2 s
      show ((process_audio_delay_sample BS mode s f.1 f.2).1 ::
          (delay_process_block BS mode (process_audio_delay_sample BS mode s f.1 f.2).2
            (rest ++ l2)).1,
          (delay_process_block BS mode (process_audio_delay_sample BS mode s f.1 f.2).2
            (rest ++ l2)).2) = _
      rw [ih l2 (process_audio_delay_sample BS mode s f.1 f.2).2]
      rfl

theorem dpc_flatten (BS : Nat) (mode : DelayMode) :
    ∀ (cs : List (List (Int × Int))) (s : DelayState),
    delay_process_chunks BS mode s cs = delay_process_block BS mode s cs.flatten := by
  intro cs
  induction cs with
  | nil => intro s; rfl
  | cons c cs ih =>
      intro s
      show ((delay_process_block BS mode s c).1 ++
          (delay_process_chunks BS mode (delay_process_block BS mode s c).2 cs).1,
          (delay_process_chunks BS mode (delay_process_block BS mode s c).2 cs).2) = _
      rw [ih (delay_process_block BS mode s c).2, List.flatten_cons,
        dpb_append BS mode c cs.flatten s]

theorem outFrames_length (dry mix vol alpha : Nat) (A : Int) :
    ∀ (m n : Nat), (outFrames dry mix vol alpha A n m).length = m := by
  intro m
  induction m with
  | zero => intro n; rfl
  | succ m ih =>
      intro n
      show (outFrames dry mix vol alpha A (n + 1) m).length + 1 = m + 1
      rw [ih (n + 1)]

theorem outFrames_getD (dry mix vol alpha : Nat) (A : Int) :
    ∀ (m k n : Nat), k < m →
    (outFrames dry mix vol alpha A n m).getD k ((0 : Int), (0 : Int)) =
      (outIdeal dry mix vol alpha A (n + k), 0) := by
  intro m
  induction m with
  | zero => intro k n h; exact absurd h (Nat.not_lt_zero k)
  | succ m ih =>
      intro k n hk
      cases k with
      | zero =>
          show ((outIdeal dry mix vol alpha A n, (0 : Int)) ::
            outFrames dry mix vol alpha A (n + 1) m).getD 0 ((0 : Int), (0 : Int)) = _
          rw [List.getD_cons_zero]
          rfl
      | succ k =>
          show ((outIdeal dry mix vol alpha A n, (0 : Int)) ::
            outFrames dry mix vol alpha A (n + 1) m).getD (k + 1) ((0 : Int), (0 : Int)) = _
          rw [List.getD_cons_succ, ih k (n + 1) (by omega),
            show n + 1 + k = n + (k + 1) from by omega]

theorem outIdeal_silent (dry mix vol alpha : Nat) (A : Int) (n : Nat)
    (h1 : 1 ≤ n) (h2 : n < 48000) :
    outIdeal dry mix vol alpha A n = 0 := by
  unfold outIdeal xin
  rw [if_neg (by omega : ¬ n = 0), if_neg (by omega : ¬ n = 48000),
    multiply_q16_zero, multiply_q16_zero, show ((0 : Int) + 0) = 0 from by norm_num,
    wrap32_zero, multiply_q16_zero]

theorem lpfSeq_one (alpha : Nat) (A : Int)
    (h1 : -2147483648 ≤ A) (h2 : A < 2147483648) :
    lpfSeq alpha A 1 = multiply_q16 A alpha := by
  show wrap32 (0 + multiply_q16 (wrap32 (A - 0)) alpha) = multiply_q16 A alpha
  rw [sub_zero, wrap32_eq_self h1 h2, zero_add]
  exact wrap32_eq_self (multiply_q16_bounds A alpha).1 (multiply_q16_bounds A alpha).2

theorem multiply_q16_one {x : Int} (h1 : -2147483648 ≤ x) (h2 : x < 2147483648) :
    multiply_q16 x Q16_ONE = x := by
  have h : multiply_q16 x Q16_ONE = wrap32 (x * 65536 / 65536) := multiply_q16_eq x Q16_ONE
  rw [h, Int.mul_ediv_cancel x (by norm_num : (65536 : Int) ≠ 0)]
  exact wrap32_eq_self h1 h2

theorem outIdeal_final (dry mix vol alpha : Nat) (A : Int)
    (h1 : -2147483648 ≤ A) (h2 : A < 2147483648) :
    outIdeal dry mix vol alpha A 48000 =
      multiply_q16 (multiply_q16 (multiply_q16 A alpha) mix) vol := by
  unfold outIdeal
  rw [if_pos rfl, show xin A 48000 = 0 from by unfold xin; rw [if_neg (by omega)],
    multiply_q16_zero, lpfSeq_one alpha A h1 h2, zero_add,
    wrap32_eq_self (multiply_q16_bounds _ _).1 (multiply_q16_bounds _ _).2]

/-- Claim C2: with both channels' delay at 48000 samples and cleared
delay memory, processing the 48001-frame impulse stream (amplitude A at
sample 0, silence after) in parallel mode gives, for every block size
BS dividing the per-channel store capacity and for every partition of
the stream into processing chunks, the same closed-form output: silence
on every sample from 1 to 47999, and at sample 48000 — exactly 48000
samples after the impulse — the value
multiply_q16 (multiply_q16 (multiply_q16 A alpha) mix) vol, which does
not depend on BS or on the chunking; with the write-path low-pass fully
open and mix and volume at Q16 one that reappearing sample is the
bit-exact impulse A. -/
theorem delay_exactness (BS fb mix dry vol alpha : Nat) (A : Int)
    (chunks : List (List (Int × Int)))
    (hBS : 0 < BS) (hdvd : BS ∣ 49152) (hle : BS ≤ 48000)
    (hA1 : -2147483648 ≤ A) (hA2 : A < 2147483648)
    (hch : chunks.flatten = impulseFrames A) :
    (delay_process_chunks BS DelayMode.parallel
        (delayClearedState BS fb mix dry vol alpha) chunks).1 =
      outFrames dry mix vol alpha A 0 48001 ∧
    (outFrames dry mix vol alpha A 0 48001).length = 48001 ∧
    (∀ n, 1 ≤ n → n < 48000 →
      (outFrames dry mix vol alpha A 0 48001).getD n ((0 : Int), (0 : Int)) = (0, 0)) ∧
    (outFrames dry mix vol alpha A 0 48001).getD 48000 ((0 : Int), (0 : Int)) =
      (multiply_q16 (multiply_q16 (multiply_q16 A alpha) mix) vol, 0) ∧
    (alpha = Q16_ONE → mix = Q16_ONE → vol = Q16_ONE →
      (outFrames dry mix vol alpha A 0 48001).getD 48000 ((0 : Int), (0 : Int)) =
        (A, 0)) := by
  refine ⟨?_, ?_, ?_, ?_, ?_⟩
  · rw [dpc_flatten BS DelayMode.parallel chunks _, hch]
    exact impulse_run BS fb mix dry vol alpha A hBS hdvd hle hA1 hA2
  · exact outFrames_length dry mix vol alpha A 48001 0
  · intro n h1 h2
    rw [outFrames_getD dry mix vol alpha A 48001 n 0 (by omega), Nat.zero_add,
      outIdeal_silent dry mix vol alpha A n h1 h2]
  · rw [outFrames_getD dry mix vol alpha A 48001 48000 0 (by omega), Nat.zero_add,
      outIdeal_final dry mix vol alpha A hA1 hA2]
  · intro ha hm hv
    subst ha
    subst hm
    subst hv
    rw [outFrames_getD dry Q16_ONE Q16_ONE Q16_ONE A 48001 48000 0 (by omega),
      Nat.zero_add, outIdeal_final dry Q16_ONE Q16_ONE Q16_ONE A hA1 hA2,
      multiply_q16_one hA1 hA2, multiply_q16_one hA1 hA2, multiply_q16_one hA1 hA2]

/-- Witness for C2 at block size 16384 (three store blocks per channel),
impulse amplitude 12345, fully wet mix, unity volume, fully open
low-pass, the stream delivered as a single chunk. -/
theorem delay_exactness_witness :
    (delay_process_chunks 16384 DelayMode.parallel
        (delayClearedState 16384 0 65536 0 65536 65536) [impulseFrames 12345]).1 =
      outFrames 0 65536 65536 65536 12345 0 48001 ∧
    (outFrames 0 65536 65536 65536 12345 0 48001).length = 48001 ∧
    (∀ n, 1 ≤ n → n < 48000 →
      (outFrames 0 65536 65536 65536 12345 0 48001).getD n ((0 : Int), (0 : Int)) =
        (0, 0)) ∧
    (outFrames 0 65536 65536 65536 12345 0 48001).getD 48000 ((0 : Int), (0 : Int)) =
      (multiply_q16 (multiply_q16 (multiply_q16 12345 65536) 65536) 65536, 0) ∧
    ((65536 : Nat) = Q16_ONE → (65536 : Nat) = Q16_ONE → (65536 : Nat) = Q16_ONE →
      (outFrames 0 65536 65536 65536 12345 0 48001).getD 48000 ((0 : Int), (0 : Int)) =
        (12345, 0)) :=
  delay_exactness 16384 0 65536 0 65536 65536 12345 [impulseFrames 12345]
    (by decide) ⟨3, by norm_num⟩ (by decide) (by decide) (by decide) (by simp)

/-! ### C3 : park protocol safety -/

instance : DecidablePred CoordInv := fun s => by
  unfold CoordInv
  infer_instance

theorem coordInv_boot : CoordInv initCoordState := by decide

theorem coordInv_step :
    ∀ s : CoordState, CoordInv s →
      CoordInv (core0Step s).1 ∧ ∀ b, CoordInv (core1Step b s).1 := by decide

theorem coordInv_reachable {s : CoordState} (h : CoordReachable s) : CoordInv s := by
  induction h with
  | boot => exact coordInv_boot
  | c0 _ ih => exact (coordInv_step _ ih).1
  | c1 b _ ih => exact (coordInv_step _ ih).2 b

/-- Claim C3: in every reachable state of the park protocol, (1) once
ui_park_req is up, the UI core sets ui_park_ack within at most two of
its loop steps, whatever its current program point; (2) the saving core
performs the blocking flash write only in states where ui_park_ack is
up; (3) while ui_park_ack is up the UI core performs no peripheral
access, up to and including the un-park step; (4) ui_park_req is up
only when saving_in_progress is already up, reflecting that the saving
core sets saving_in_progress before ui_park_req in program order. -/
theorem park_protocol_safety (s : CoordState) (h : CoordReachable s) :
    (∀ r1 r2 : Bool, s.ui_park_req = true →
      (core1Step r2 (core1Step r1 s).1).1.ui_park_ack = true) ∧
    ((core0Step s).2 = SysEvent.flashWrite → s.ui_park_ack = true) ∧
    (∀ b : Bool, s.ui_park_ack = true → (core1Step b s).2 ≠ SysEvent.peripheral) ∧
    (s.ui_park_req = true → s.saving_in_progress = true) := by
  have hInv : CoordInv s := coordInv_reachable h
  exact (by decide :
    ∀ t : CoordState, CoordInv t →
      (∀ r1 r2 : Bool, t.ui_park_req = true →
        (core1Step r2 (core1Step r1 t).1).1.ui_park_ack = true) ∧
      ((core0Step t).2 = SysEvent.flashWrite → t.ui_park_ack = true) ∧
      (∀ b : Bool, t.ui_park_ack = true → (core1Step b t).2 ≠ SysEvent.peripheral) ∧
      (t.ui_park_req = true → t.saving_in_progress = true)) s hInv

/-- Witness for C3 at the reachable state in which the UI core has
raised the save request and the saving core has raised the park
request. -/
theorem park_protocol_safety_witness :
    (∀ r1 r2 : Bool, coordDemoState.ui_park_req = true →
      (core1Step r2 (core1Step r1 coordDemoState).1).1.ui_park_ack = true) ∧
    ((core0Step coordDemoState).2 = SysEvent.flashWrite →
      coordDemoState.ui_park_ack = true) ∧
    (∀ b : Bool, coordDemoState.ui_park_ack = true →
      (core1Step b coordDemoState).2 ≠ SysEvent.peripheral) ∧
    (coordDemoState.ui_park_req = true → coordDemoState.saving_in_progress = true) :=
  park_protocol_safety coordDemoState
    (CoordReachable.c0 (CoordReachable.c0 (CoordReachable.c1 true
      (CoordReachable.c1 false CoordReachable.boot))))

end RP2040DSP
